import Mathlib

set_option maxRecDepth 20000

deriving instance DecidableEq for Except

/-!
Verification development for the CU Trial Data Validator (src/app.py).

The Python program is shallowly embedded below.  A file on disk is modelled
by `CFile`: the byte content, the `os.stat` size, the records produced by
`csv.reader`, a readability flag (a missing/unreadable file makes `open` and
`stat` raise), and the message of a `csv.Error` raised while reading the
first two records, if any.  Machine-level pieces of the standard library
(SHA-256, `uuid.uuid1`, `datetime.now`, IEEE-754 `float`) are modelled by
executable idealizations, each noted at its definition.
-/

/-- A calendar timestamp, as produced by `datetime.strptime(ts, "%Y%m%d%H%M%S")`. -/
structure DateTime where
  year : Nat
  month : Nat
  day : Nat
  hour : Nat
  minute : Nat
  second : Nat
deriving Repr, DecidableEq

/-- A value stored in the validation context.  In the source the context is a
Python dict; the only values ever stored are the datetime parsed from the
filename (`dt`), the raw timestamp string (`ts`) and the content digest
(`sha`), so a two-constructor sum suffices. -/
inductive CtxVal where
  | dt (d : DateTime)
  | str (s : String)
deriving Repr, DecidableEq

/-- The validation context (`context = {}` in `Pipeline.process_file`): a
Python dict from string keys, modelled as an insertion-ordered association
list with update-in-place semantics. -/
abbrev Ctx := List (String × CtxVal)

/-- `context[k] = v` for a Python dict: replace in place if the key exists,
append otherwise. -/
def ctxSet : Ctx → String → CtxVal → Ctx
  | [], k, v => [(k, v)]
  | (k0, v0) :: rest, k, v =>
      if k = k0 then (k0, v) :: rest else (k0, v0) :: ctxSet rest k v

/-- `context.update(meta)` in `Pipeline.process_file`. -/
def ctxUpdate (c : Ctx) (upd : Ctx) : Ctx :=
  upd.foldl (fun a p => ctxSet a p.1 p.2) c

/-- `context.get(k)`. -/
def ctxGet : Ctx → String → Option CtxVal
  | [], _ => none
  | (k0, v0) :: rest, k => if k = k0 then some v0 else ctxGet rest k

/-- One validation issue dict, e.g. `{"rule": ..., "message": ..., "row": i}`.
All issues built by the source validators carry a `rule` and a `message`;
`row` is present only for per-row issues. -/
structure Issue where
  rule : String
  message : String
  row : Option Nat := none
deriving Repr, DecidableEq

/-- `ValidationResult(ok, issues, meta)` from src/app.py. -/
structure VResult where
  ok : Bool
  issues : List Issue
  meta : Ctx
deriving Repr, DecidableEq

/-- A file on disk, as observed by the validators.  `readable = false` models
a file that `open`/`os.stat` cannot access (raising `OSError`); `csvError`
models a `csv.Error` raised while reading the first two records (e.g. a NUL
byte); `records` is the row list produced by `csv.reader`; `bytes` the raw
content read in binary mode; `size` the `os.stat(...).st_size`. -/
structure CFile where
  bytes : List Nat
  size : Nat
  records : List (List String)
  readable : Bool
  csvError : Option String
deriving Repr, DecidableEq

/-- One row of the `seen_files` SQLite table. -/
structure SeenRecord where
  filename : String
  sha256 : String
  first_seen_ts : String
deriving Repr, DecidableEq

/-- The `seen_files` table, in insertion order. -/
abbrev Store := List SeenRecord

/-- Modelled stdlib: `hashlib.sha256(...).hexdigest()` over the file bytes.
The real digest is a fixed-width collision-resistant hex string; it is
idealized here as an injective hex encoding of the content (every property
proved below uses only that the digest is a nonempty deterministic function
of the bytes). -/
def sha256Hex (bs : List Nat) : String :=
  "h" ++ String.join (bs.map (fun b => Nat.toDigits 16 (b % 256) |>.asString))

/-- `EXPECTED_HEADERS = ["batch_id", "timestamp"] + [f"reading{i}" for i in range(1, 11)]`. -/
def EXPECTED_HEADERS : List String :=
  ["batch_id", "timestamp"] ++ (List.range 10).map (fun i => "reading" ++ toString (i + 1))

/-- Value of `s.foldl` over ASCII digits, `int(s)` for a plain digit string. -/
def natOfDigits (cs : List Char) : Nat :=
  cs.foldl (fun a c => a * 10 + (c.toNat - 48)) 0

/-- ASCII lower-casing (`str.lower` restricted to the characters `float()`
cares about). -/
def charLower (c : Char) : Char :=
  if 'A' ≤ c ∧ c ≤ 'Z' then Char.ofNat (c.toNat + 32) else c

/-- Python `str.strip()`: remove ASCII whitespace from both ends (the
Unicode-only whitespace Python also strips is not modelled). -/
def pyStrip (s : String) : String :=
  ((s.toList.dropWhile Char.isWhitespace).reverse.dropWhile Char.isWhitespace).reverse.asString

/-- `FILENAME_RX = ^MED_DATA_(\d{14})\.csv$`: on a match, the captured
14-digit group.  (`\d` is modelled as ASCII digits.) -/
def fnameMatch (fn : String) : Option String :=
  let cs := fn.toList
  if cs.length = 27 ∧ cs.take 9 = "MED_DATA_".toList ∧ cs.drop 23 = ".csv".toList
      ∧ ((cs.drop 9).take 14).all Char.isDigit then
    some ((cs.drop 9).take 14).asString
  else none

def leapYear (y : Nat) : Bool :=
  (y % 4 = 0 && y % 100 ≠ 0) || y % 400 = 0

def daysInMonth (y m : Nat) : Nat :=
  if m = 2 then (if leapYear y then 29 else 28)
  else if m = 4 ∨ m = 6 ∨ m = 9 ∨ m = 11 then 30
  else 31

/-- Modelled stdlib: `datetime.strptime(ts, "%Y%m%d%H%M%S")` on a 14-digit
string; `ValueError` (modelled as `none`) when the digits are not a real
calendar date/time (datetime requires year ≥ 1, a valid month/day, hour ≤ 23,
minute ≤ 59 and second ≤ 59). -/
def parseDt14 (ts : String) : Option DateTime :=
  let y := natOfDigits (ts.toList.take 4)
  let mo := natOfDigits ((ts.toList.drop 4).take 2)
  let d := natOfDigits ((ts.toList.drop 6).take 2)
  let h := natOfDigits ((ts.toList.drop 8).take 2)
  let mi := natOfDigits ((ts.toList.drop 10).take 2)
  let s := natOfDigits ((ts.toList.drop 12).take 2)
  if 1 ≤ y ∧ 1 ≤ mo ∧ mo ≤ 12 ∧ 1 ≤ d ∧ d ≤ daysInMonth y mo
      ∧ h ≤ 23 ∧ mi ≤ 59 ∧ s ≤ 59 then
    some ⟨y, mo, d, h, mi, s⟩
  else none

def pad2 (n : Nat) : String :=
  if n < 10 then "0" ++ toString n else toString n

def pad4 (n : Nat) : String :=
  if n < 10 then "000" ++ toString n
  else if n < 100 then "00" ++ toString n
  else if n < 1000 then "0" ++ toString n
  else toString n

/-- `dt.strftime("%Y/%m/%d")`: the zero-padded date-bucket path. -/
def fmtDate (d : DateTime) : String :=
  pad4 d.year ++ "/" ++ pad2 d.month ++ "/" ++ pad2 d.day

/-- `TIMESTAMP_RX = ^\d{2}:\d{2}:\d{2}$` applied with `re.match`. -/
def timestampRx (s : String) : Bool :=
  match s.toList with
  | [a, b, c, d, e, f, g, h] =>
      a.isDigit && b.isDigit && c = ':' && d.isDigit && e.isDigit
        && f = ':' && g.isDigit && h.isDigit
  | _ => false

/-- Digit run accepted by Python `int`, with single underscores allowed
between digits (`int("1_0") == 10`, but `_1`, `1_` and `1__0` fail). -/
def intDigitsOk : List Char → Bool
  | [] => false
  | c :: rest => c.isDigit && intDigitsRest rest
where
  intDigitsRest : List Char → Bool
    | [] => true
    | '_' :: d :: rest => d.isDigit && intDigitsRest rest
    | ['_'] => false
    | d :: rest => d.isDigit && intDigitsRest rest

/-- Modelled stdlib: `int(s)` on an already-stripped string; `none` models a
raised `ValueError`. -/
def parsePyInt (s : String) : Option Int :=
  match s.toList with
  | '-' :: body =>
      if intDigitsOk body then some (-(natOfDigits (body.filter (· ≠ '_')) : Int)) else none
  | '+' :: body =>
      if intDigitsOk body then some (natOfDigits (body.filter (· ≠ '_')) : Int) else none
  | body =>
      if intDigitsOk body then some (natOfDigits (body.filter (· ≠ '_')) : Int) else none

/-- Value of `float(s)` as observed by the source.  A finite value is kept
exactly as the scaled decimal `mantissa / 10 ^ scale` written in the input
(rounding a decimal to the nearest double is monotone and 10.0 is exactly
representable, so the only comparison the source makes, `fval >= 10.0`,
agrees with the exact value except for decimals that differ from 10.0 by
less than one ulp). -/
inductive PyFloat where
  | num (mantissa : Int) (scale : Nat)
  | pinf
  | ninf
  | nan
deriving Repr, DecidableEq

/-- Decimal digit run with optional fraction, `d+[.d*] | .d+`, returned as
(all digits as a number, number of fractional digits). -/
def parseDecBody (cs : List Char) : Option (Nat × Nat) :=
  let ip := cs.takeWhile Char.isDigit
  let rest := cs.dropWhile Char.isDigit
  match rest with
  | [] => if ip.isEmpty then none else some (natOfDigits ip, 0)
  | '.' :: rest2 =>
      let fp := rest2.takeWhile Char.isDigit
      let rest3 := rest2.dropWhile Char.isDigit
      if !rest3.isEmpty then none
      else if ip.isEmpty && fp.isEmpty then none
      else some (natOfDigits (ip ++ fp), fp.length)
  | _ => none

/-- Mantissa with optional exponent part (`1.5e-3`), as a scaled decimal. -/
def parseNumBody (cs : List Char) : Option (Nat × Nat) :=
  match cs.splitOn 'e' with
  | [m] => parseDecBody m
  | [m, ex] =>
      match parseDecBody m with
      | none => none
      | some (n, k) =>
          let apply := fun (eneg : Bool) (e : Nat) =>
            if eneg then some (n, k + e)
            else if k ≤ e then some (n * 10 ^ (e - k), 0)
            else some (n, k - e)
          match ex with
          | '-' :: ds => if ds.isEmpty ∨ !ds.all Char.isDigit then none
                         else apply true (natOfDigits ds)
          | '+' :: ds => if ds.isEmpty ∨ !ds.all Char.isDigit then none
                         else apply false (natOfDigits ds)
          | ds => if ds.isEmpty ∨ !ds.all Char.isDigit then none
                  else apply false (natOfDigits ds)
  | _ => none

/-- `float(s)` raises `OverflowError` when the decimal rounds beyond the
largest finite double: magnitude at least `2^1024 - 2^970`. -/
def floatOverflows (n : Nat) (k : Nat) : Bool :=
  (2 ^ 1024 - 2 ^ 970) * 10 ^ k ≤ n

/-- Modelled stdlib: `float(s)` on an already-stripped string.  `none` models
a raised exception (`ValueError`, or `OverflowError` for finite decimals too
large for a double); both are caught identically at the single call site.
(Underscores in numeric literals, legal in Python, are not modelled.) -/
def parsePyFloat (s : String) : Option PyFloat :=
  let t := s.toList.map charLower
  let (neg, body) :=
    match t with
    | '-' :: rest => (true, rest)
    | '+' :: rest => (false, rest)
    | cs => (false, cs)
  if body = "inf".toList ∨ body = "infinity".toList then
    some (if neg then PyFloat.ninf else PyFloat.pinf)
  else if body = "nan".toList then some PyFloat.nan
  else
    match parseNumBody body with
    | none => none
    | some (n, k) =>
        if floatOverflows n k then none
        else some (PyFloat.num (if neg then -(n : Int) else (n : Int)) k)

/-- `fval >= 10.0` on a parsed float: `m / 10^k ≥ 10` iff `m ≥ 10^(k+1)`. -/
def pyGe10 : PyFloat → Bool
  | .num m k => (10 ^ (k + 1) : Int) ≤ m
  | .pinf => true
  | .ninf => false
  | .nan => false

/-- Strip trailing zeros from the fractional part: `(m, k)` with `m / 10^k`
in lowest decimal terms. -/
def decCanon : Int → Nat → Int × Nat
  | m, 0 => (m, 0)
  | m, k + 1 => if m % 10 = 0 then decCanon (m / 10) k else (m, k + 1)

/-- Modelled stdlib: `str(float)` (the repr interpolated by the f-string
`f"{col} out of range: {fval}"`).  Python prints the shortest decimal that
round-trips, which for a short input literal is the literal itself with
trailing fractional zeros removed (e.g. `str(10.0) == "10.0"`,
`str(float("1.50")) == "1.5"`); Python switches to scientific notation
outside `[1e-4, 1e16)`, which this model does not reproduce. -/
def fmtPyFloat : PyFloat → String
  | .pinf => "inf"
  | .ninf => "-inf"
  | .nan => "nan"
  | .num m k =>
      let sign := if m < 0 then "-" else ""
      let (m2, k2) := decCanon m.natAbs k
      let n := m2.natAbs
      if k2 = 0 then sign ++ toString n ++ ".0"
      else
        let digits := (toString n).toList
        let digits := if digits.length ≤ k2 then
            List.replicate (k2 + 1 - digits.length) '0' ++ digits
          else digits
        sign ++ (digits.take (digits.length - k2)).asString ++ "."
          ++ (digits.drop (digits.length - k2)).asString

example : fmtPyFloat (PyFloat.num 10 0) = "10.0" := by decide
example : fmtPyFloat (PyFloat.num 1 1) = "0.1" := by decide
example : parsePyFloat "10.0" = some (PyFloat.num 100 1) := by decide
example : fmtPyFloat (PyFloat.num 100 1) = "10.0" := by decide
example : parsePyFloat "0.1" = some (PyFloat.num 1 1) := by decide
example : parsePyFloat "x" = none := by decide
example : pyGe10 (PyFloat.num 100 1) = true := by decide
example : pyGe10 (PyFloat.num 1 1) = false := by decide
example : fnameMatch "MED_DATA_20240101120000.csv" = some "20240101120000" := by decide
example : parseDt14 "20240101120000" = some ⟨2024, 1, 1, 12, 0, 0⟩ := by decide
example : fnameMatch "x.csv" = none := by decide
example : timestampRx "12:00:00" = true := by decide
example : EXPECTED_HEADERS.length = 12 := by decide

/-! ## Validators (src/app.py lines 103-233)

Each `validate` has signature `(filename, path, context) -> ValidationResult`
in the source; the embedded signature additionally takes the seen-file store,
which only `UniquenessValidator` consults (in the source it reaches the
global `tracker`).  An `Except String` result models an exception escaping
`validate`; the carried string is the diagnostic text interpolated into
`f"validator exception: {e}"`. -/

/-- `FilenameValidator.validate`. -/
def FilenameValidator.validate (fn : String) (f : CFile) (ctx : Ctx) (store : Store) :
    Except String VResult :=
  match fnameMatch fn with
  | none => .ok ⟨false, [⟨"filename_format", "invalid filename format", none⟩], []⟩
  | some ts =>
      match parseDt14 ts with
      | none => .ok ⟨false, [⟨"filename_format", "invalid datetime in filename", none⟩], []⟩
      | some dt => .ok ⟨true, [], [("dt", CtxVal.dt dt), ("ts", CtxVal.str ts)]⟩

/-- `NonEmptyValidator.validate`.  `path.stat()` raises `OSError` when the
file is not accessible. -/
def NonEmptyValidator.validate (fn : String) (f : CFile) (ctx : Ctx) (store : Store) :
    Except String VResult :=
  if !f.readable then .error "stat failed"
  else if f.size = 0 then .ok ⟨false, [⟨"non_empty", "file is empty", none⟩], []⟩
  else .ok ⟨true, [], []⟩

/-- `CSVParseValidator.validate`: both the `open` failure and a `csv.Error`
while reading the first two records are caught by its own `try` and turned
into a failing result. -/
def CSVParseValidator.validate (fn : String) (f : CFile) (ctx : Ctx) (store : Store) :
    Except String VResult :=
  if !f.readable then
    .ok ⟨false, [⟨"csv_parse", "CSV parse error: could not open file", none⟩], []⟩
  else
    match f.csvError with
    | some e => .ok ⟨false, [⟨"csv_parse", "CSV parse error: " ++ e, none⟩], []⟩
    | none => .ok ⟨true, [], []⟩

/-- Python `repr` of a list of strings, interpolated by
`f"header mismatch: {header}"` (repr escaping of quote characters inside the
field texts is not modelled). -/
def pyReprStrList (xs : List String) : String :=
  let q := (String.mk [Char.ofNat 39])
  "[" ++ String.join ((xs.map (fun s => q ++ s ++ q)).intersperse ", ") ++ "]"

/-- `HeaderValidator.validate`: the uncaught `open` can raise. -/
def HeaderValidator.validate (fn : String) (f : CFile) (ctx : Ctx) (store : Store) :
    Except String VResult :=
  if !f.readable then .error "open failed"
  else
    match f.records.head? with
    | none => .ok ⟨false, [⟨"header_check", "missing header", none⟩], []⟩
    | some h =>
        if h = EXPECTED_HEADERS then .ok ⟨true, [], []⟩
        else .ok ⟨false, [⟨"header_check", "header mismatch: " ++ pyReprStrList h, none⟩], []⟩

/-- The loop body of `RowShapeValidator.validate`:
`for i, row in enumerate(reader, start=2)` after `next(reader, None)`. -/
def RowShapeValidator.issuesFrom : Nat → List (List String) → List Issue
  | _, [] => []
  | i, r :: rest =>
      (if r.length ≠ EXPECTED_HEADERS.length then
        [⟨"row_shape", "row has " ++ toString r.length ++ " cols", some i⟩]
      else []) ++ RowShapeValidator.issuesFrom (i + 1) rest

/-- `RowShapeValidator.validate`: the uncaught `open` can raise. -/
def RowShapeValidator.validate (fn : String) (f : CFile) (ctx : Ctx) (store : Store) :
    Except String VResult :=
  if !f.readable then .error "open failed"
  else
    let iss := RowShapeValidator.issuesFrom 2 (f.records.drop 1)
    .ok ⟨iss.isEmpty, iss, []⟩

/-- `csv.DictReader` field lookup `row.get(col, '')`: `none` when `col` is
not a fieldname (so `get` returns the `''` default), `some none` when the row
is shorter than the header (`DictReader` fills missing fields with `None`),
`some (some v)` otherwise.  (`dict(zip(...))` keeps the last duplicate
fieldname; the expected header has no duplicates, so first-index lookup is
used.) -/
def dictGet (fieldnames r : List String) (key : String) : Option (Option String) :=
  match fieldnames.findIdx? (· = key) with
  | none => none
  | some j => some r[j]?

/-- The data rows seen by a `csv.DictReader`: everything after the header
row, with blank records skipped. -/
def dictRows (records : List (List String)) : List (List String) :=
  (records.drop 1).filter (fun r => !r.isEmpty)

/-- The `batch_id` portion of the `ValueDomainValidator` loop body.
`row.get('batch_id', '')` returning `None` makes `None.strip()` raise inside
the `try`, which the `except` turns into the not-integer issue. -/
def ValueDomainValidator.batchIssues (fieldnames r : List String) (i : Nat) : List Issue :=
  match dictGet fieldnames r "batch_id" with
  | some none => [⟨"value_domain", "batch_id not integer", some i⟩]
  | v =>
      let s := pyStrip ((v.getD (some "")).getD "")
      match parsePyInt s with
      | none => [⟨"value_domain", "batch_id not integer", some i⟩]
      | some b =>
          if b ≤ 0 then [⟨"value_domain", "batch_id not positive", some i⟩] else []

/-- The reading-columns loop of `ValueDomainValidator`:
`for col in EXPECTED_HEADERS[2:]`.  A `None` field value makes the
`.strip()` outside the `try` raise `AttributeError`, which escapes. -/
def ValueDomainValidator.readingIssues (fieldnames r : List String) (i : Nat) :
    List String → Except String (List Issue)
  | [] => .ok []
  | col :: cols =>
      match dictGet fieldnames r col with
      | some none => .error "NoneType has no attribute strip"
      | v =>
          let val := pyStrip ((v.getD (some "")).getD "")
          let cur :=
            match parsePyFloat val with
            | none => [⟨"value_domain", col ++ " not float", some i⟩]
            | some fv =>
                if pyGe10 fv then
                  [⟨"value_domain", col ++ " out of range: " ++ fmtPyFloat fv, some i⟩]
                else []
          match ValueDomainValidator.readingIssues fieldnames r i cols with
          | .error e => .error e
          | .ok rest => .ok (cur ++ rest)

/-- One full row of the `ValueDomainValidator` loop: batch_id, timestamp,
then the ten reading columns, in source order. -/
def ValueDomainValidator.rowIssues (fieldnames r : List String) (i : Nat) :
    Except String (List Issue) :=
  let batch := ValueDomainValidator.batchIssues fieldnames r i
  match dictGet fieldnames r "timestamp" with
  | some none => .error "NoneType has no attribute strip"
  | v =>
      let ts := pyStrip ((v.getD (some "")).getD "")
      let tsIss := if !timestampRx ts then [⟨"value_domain", "bad timestamp format", some i⟩] else []
      match ValueDomainValidator.readingIssues fieldnames r i (EXPECTED_HEADERS.drop 2) with
      | .error e => .error e
      | .ok rIss => .ok (batch ++ tsIss ++ rIss)

/-- `for i, row in enumerate(reader, start=2)` over the dict rows. -/
def ValueDomainValidator.issuesFrom (fieldnames : List String) :
    Nat → List (List String) → Except String (List Issue)
  | _, [] => .ok []
  | i, r :: rest =>
      match ValueDomainValidator.rowIssues fieldnames r i with
      | .error e => .error e
      | .ok cur =>
          match ValueDomainValidator.issuesFrom fieldnames (i + 1) rest with
          | .error e => .error e
          | .ok more => .ok (cur ++ more)

/-- `ValueDomainValidator.validate`: the uncaught `open` can raise; so can a
`None.strip()` on a short row. -/
def ValueDomainValidator.validate (fn : String) (f : CFile) (ctx : Ctx) (store : Store) :
    Except String VResult :=
  if !f.readable then .error "open failed"
  else
    match f.records.head? with
    | none => .ok ⟨true, [], []⟩
    | some fieldnames =>
        match ValueDomainValidator.issuesFrom fieldnames 2 (dictRows f.records) with
        | .error e => .error e
        | .ok iss => .ok ⟨iss.isEmpty, iss, []⟩

/-- The loop of `DuplicateBatchValidator.validate`, threading the `seen` set
(repeated ids are not re-added, matching the `else` branch). -/
def DuplicateBatchValidator.issuesFrom (fieldnames : List String) :
    List String → Nat → List (List String) → Except String (List Issue)
  | _, _, [] => .ok []
  | seen, i, r :: rest =>
      match dictGet fieldnames r "batch_id" with
      | some none => .error "NoneType has no attribute strip"
      | v =>
          let bid := pyStrip ((v.getD (some "")).getD "")
          if bid ∈ seen then
            match DuplicateBatchValidator.issuesFrom fieldnames seen (i + 1) rest with
            | .error e => .error e
            | .ok more => .ok (⟨"duplicate_batch_id", "duplicate batch_id: " ++ bid, some i⟩ :: more)
          else DuplicateBatchValidator.issuesFrom fieldnames (bid :: seen) (i + 1) rest

/-- `DuplicateBatchValidator.validate`. -/
def DuplicateBatchValidator.validate (fn : String) (f : CFile) (ctx : Ctx) (store : Store) :
    Except String VResult :=
  if !f.readable then .error "open failed"
  else
    match f.records.head? with
    | none => .ok ⟨true, [], []⟩
    | some fieldnames =>
        match DuplicateBatchValidator.issuesFrom fieldnames [] 2 (dictRows f.records) with
        | .error e => .error e
        | .ok iss => .ok ⟨iss.isEmpty, iss, []⟩

/-! ## Tracker (src/app.py lines 65-101) -/

/-- `Tracker.hash_file`: streams the file through SHA-256; `open` raises on
an unreadable file. -/
def Tracker.hash_file (f : CFile) : Except String String :=
  if f.readable then .ok (sha256Hex f.bytes) else .error "open failed"

/-- `Tracker.is_seen`: `SELECT 1 FROM seen_files WHERE sha256=?`. -/
def Tracker.is_seen (s : Store) (sha : String) : Bool :=
  s.any (fun r => r.sha256 = sha)

/-- `Tracker.mark_seen`: `INSERT OR IGNORE` against the `UNIQUE` constraint
on `sha256` — a row is appended only when no row with this digest exists. -/
def Tracker.mark_seen (s : Store) (filename sha ts : String) : Store :=
  if Tracker.is_seen s sha then s else s ++ [⟨filename, sha, ts⟩]

/-- `UniquenessValidator.validate`: note that the digest is published into
the context (`meta`) on failure as well as on success. -/
def UniquenessValidator.validate (fn : String) (f : CFile) (ctx : Ctx) (store : Store) :
    Except String VResult :=
  match Tracker.hash_file f with
  | .error e => .error e
  | .ok sha =>
      if Tracker.is_seen store sha then
        .ok ⟨false, [⟨"file_uniqueness", "duplicate file (sha256)", none⟩], [("sha", CtxVal.str sha)]⟩
      else .ok ⟨true, [], [("sha", CtxVal.str sha)]⟩

/-! ## Error logger (src/app.py lines 34-63) -/

/-- One line of `logs/errors.jsonl`. -/
structure LedgerRecord where
  guid : String
  filename : String
  sha256 : Option String
  rule : String
  message : String
  row : Option Nat
  occurred_at : String
  meta : Ctx
deriving Repr, DecidableEq

/-- Modelled stdlib: `uuid.uuid1()` — a fresh time-ordered UUID per emit,
modelled as an injective function of an emit counter that advances over the
life of the process (and across runs, uuid1 being time-based). -/
def guidOf (n : Nat) : String := "uuid-" ++ toString n

/-- Modelled stdlib: `datetime.now(timezone.utc).isoformat()` at emit time,
driven by the same counter. -/
def timeOf (n : Nat) : String := "t-" ++ toString n

/-- `ErrorLogger._sha256` applied as `self._sha256(path) if path else None`:
no digest without a source path; with one, the file is re-hashed and an
unreadable file makes `open` raise — there is no `try` around it. -/
def ErrorLogger.digestOf (path : Option CFile) : Except Unit (Option String) :=
  match path with
  | none => .ok none
  | some f => if f.readable then .ok (some (sha256Hex f.bytes)) else .error ()

/-- `ErrorLogger.emit(filename, rule, message, row, path, meta)`: builds the
record and appends it; `.error` models the emit itself raising (the digest
computation escaping). -/
def ErrorLogger.emit (clock : Nat) (filename rule message : String) (row : Option Nat)
    (path : Option CFile) (meta : Ctx) : Except Unit LedgerRecord :=
  match ErrorLogger.digestOf path with
  | .error _ => .error ()
  | .ok sha =>
      .ok ⟨guidOf clock, filename, sha, rule, message, row, timeOf clock, meta⟩

/-! ## Pipeline (src/app.py lines 223-274) -/

/-- One chain entry: the object in the `DEFAULT_PIPELINE` list.  `vname`
models `getattr(v, 'name', 'validator_error')` — every validator class in
the source carries a `name` attribute, so `vname` is `some _` throughout the
default pipeline. -/
structure Validator where
  vname : Option String
  validate : String → CFile → Ctx → Store → Except String VResult

def FilenameValidator.v : Validator := ⟨some "filename_format", FilenameValidator.validate⟩
def NonEmptyValidator.v : Validator := ⟨some "non_empty", NonEmptyValidator.validate⟩
def CSVParseValidator.v : Validator := ⟨some "csv_parse", CSVParseValidator.validate⟩
def HeaderValidator.v : Validator := ⟨some "header_check", HeaderValidator.validate⟩
def RowShapeValidator.v : Validator := ⟨some "row_shape", RowShapeValidator.validate⟩
def ValueDomainValidator.v : Validator := ⟨some "value_domain", ValueDomainValidator.validate⟩
def DuplicateBatchValidator.v : Validator := ⟨some "duplicate_batch_id", DuplicateBatchValidator.validate⟩
def UniquenessValidator.v : Validator := ⟨some "file_uniqueness", UniquenessValidator.validate⟩

/-- `DEFAULT_PIPELINE` (src/app.py lines 224-233), in declaration order. -/
def DEFAULT_PIPELINE : List Validator :=
  [FilenameValidator.v, NonEmptyValidator.v, CSVParseValidator.v, HeaderValidator.v,
   RowShapeValidator.v, ValueDomainValidator.v, DuplicateBatchValidator.v,
   UniquenessValidator.v]

/-- Outcome of the `for v in self.validators` loop in
`Pipeline.process_file`: a validator raised (`crash`, carrying the rule used
by the exception emit and the diagnostic), a validator reported failure
(`failed`, carrying its issue list and the context as updated through the
break), or every validator passed. -/
inductive ChainOut where
  | crash (rule : String) (e : String) (ctx : Ctx)
  | failed (issues : List Issue) (ctx : Ctx)
  | passed (ctx : Ctx)
deriving Repr, DecidableEq

/-- The validator loop of `Pipeline.process_file` (lines 247-259): each
result's `meta` is merged into the context before `ok` is inspected, and the
loop breaks at the first failure. -/
def runChain : List Validator → Store → String → CFile → Ctx → ChainOut
  | [], _, _, _, ctx => .passed ctx
  | v :: vs, store, fn, f, ctx =>
      match v.validate fn f ctx store with
      | .error e => .crash (v.vname.getD "validator_error") e ctx
      | .ok res =>
          let ctx2 := ctxUpdate ctx res.meta
          if res.ok then runChain vs store fn f ctx2
          else .failed res.issues ctx2

/-- The `for issue in res.issues: logger.emit(...)` loop: emits until one
raises (all-or-nothing here, since the only emit failure is the unreadable
source file).  Returns the appended records and whether an emit raised. -/
def emitAll (fn : String) (f : CFile) (ctx : Ctx) : Nat → List Issue → List LedgerRecord × Bool
  | _, [] => ([], false)
  | clock, iss :: rest =>
      match ErrorLogger.emit clock fn iss.rule iss.message iss.row (some f) ctx with
      | .error _ => ([], true)
      | .ok r =>
          let (rs, c) := emitAll fn f ctx (clock + 1) rest
          (r :: rs, c)

/-- The pipeline configuration: `Pipeline(dry_run=..., no_move=..., archive_path=...)`. -/
structure PConfig where
  dryRun : Bool
  noMove : Bool
  archivePath : String
deriving Repr, DecidableEq

/-- Everything observable about one `Pipeline.process_file(path)` call:
ledger lines appended, the seen-file store afterwards, the `shutil.move`
calls performed as (filename, destination path), and the returned boolean —
`none` when an exception escaped `process_file` instead of a return. -/
structure ProcOut where
  ledger : List LedgerRecord
  store : Store
  moves : List (String × String)
  result : Option Bool
deriving Repr, DecidableEq

/-- `sha = context.get('sha') or tracker.hash_file(path)` (line 267): the
empty string is falsy for `or`.  Only the uniqueness check ever writes
`sha`, always as a string. -/
def shaOf (f : CFile) (ctx : Ctx) : Except String String :=
  match ctxGet ctx "sha" with
  | some (CtxVal.str s) => if s = "" then Tracker.hash_file f else .ok s
  | _ => Tracker.hash_file f

/-- `context.get('dt', datetime.now())` (line 270).  Only the filename check
ever writes `dt`, always as a datetime. -/
def dtOf (ctx : Ctx) (nowDt : DateTime) : DateTime :=
  match ctxGet ctx "dt" with
  | some (CtxVal.dt d) => d
  | _ => nowDt

/-- The success half of `Pipeline.process_file` (lines 266-274): re-read the
digest from the context, mark seen, and move into the archive bucket derived
from the context datetime. -/
def successPath (cfg : PConfig) (store : Store) (nowDt : DateTime) (fn : String)
    (f : CFile) (ctx : Ctx) (recs : List LedgerRecord) : ProcOut :=
  match shaOf f ctx with
  | .error _ => ⟨recs, store, [], none⟩
  | .ok sha =>
      if !cfg.dryRun && !cfg.noMove then
        ⟨recs, Tracker.mark_seen store fn sha (fmtDate nowDt),
          [(fn, cfg.archivePath ++ "/" ++ fmtDate (dtOf ctx nowDt) ++ "/" ++ fn)], some true⟩
      else ⟨recs, store, [], some true⟩

/-- `Pipeline.process_file` (src/app.py lines 242-274).  `clock` drives the
modelled uuid/timestamp generation; `nowDt` is the wall-clock datetime
(`datetime.now()`), used for the rejected bucket and the tracker timestamp.
The factoring through `runChain`/`emitAll` is observationally the source's
inline loop: ledger writes never feed back into validation, and the loop
breaks immediately after logging a failing check's issues. -/
def Pipeline.process_file (cfg : PConfig) (vs : List Validator) (store : Store)
    (clock : Nat) (nowDt : DateTime) (fn : String) (f : CFile) : ProcOut :=
  match runChain vs store fn f [] with
  | .crash rule e _ =>
      match ErrorLogger.emit clock fn rule ("validator exception: " ++ e) none (some f) [] with
      | .ok r => ⟨[r], store, [], some false⟩
      | .error _ => ⟨[], store, [], none⟩
  | .failed issues ctx =>
      let (recs, crashed) := emitAll fn f ctx clock issues
      if crashed then ⟨recs, store, [], none⟩
      else if issues.isEmpty then successPath cfg store nowDt fn f ctx recs
      else if !cfg.dryRun && !cfg.noMove then
        ⟨recs, store, [(fn, "data/rejected/" ++ fmtDate nowDt ++ "/" ++ fn)], some false⟩
      else ⟨recs, store, [], some false⟩
  | .passed ctx => successPath cfg store nowDt fn f ctx []

/-! ## Infrastructure lemmas -/

theorem sha256Hex_ne_empty (bs : List Nat) : sha256Hex bs ≠ "" := by
  intro h
  have h2 := congrArg String.data h
  simp [sha256Hex] at h2

/-- The records written by a run of consecutive `ErrorLogger.emit` calls on a
readable file: one per issue, in order, with the digest and the context
snapshot attached to each. -/
def emitRecords (fn : String) (sha : Option String) (ctx : Ctx) :
    Nat → List Issue → List LedgerRecord
  | _, [] => []
  | clock, iss :: rest =>
      ⟨guidOf clock, fn, sha, iss.rule, iss.message, iss.row, timeOf clock, ctx⟩
        :: emitRecords fn sha ctx (clock + 1) rest

theorem emitAll_readable (fn : String) (f : CFile) (ctx : Ctx) (h : f.readable = true) :
    ∀ clock issues, emitAll fn f ctx clock issues
      = (emitRecords fn (some (sha256Hex f.bytes)) ctx clock issues, false) := by
  intro clock issues
  induction issues generalizing clock with
  | nil => rfl
  | cons iss rest ih =>
      simp [emitAll, ErrorLogger.emit, ErrorLogger.digestOf, h, emitRecords, ih]

theorem emitAll_unreadable (fn : String) (f : CFile) (ctx : Ctx) (h : f.readable = false)
    (clock : Nat) (iss : Issue) (rest : List Issue) :
    emitAll fn f ctx clock (iss :: rest) = ([], true) := by
  simp [emitAll, ErrorLogger.emit, ErrorLogger.digestOf, h]

theorem emitRecords_fields (fn : String) (sha : Option String) (ctx : Ctx) :
    ∀ clock issues, (emitRecords fn sha ctx clock issues).map
      (fun r => (r.rule, r.message, r.row)) = issues.map (fun i => (i.rule, i.message, i.row)) := by
  intro clock issues
  induction issues generalizing clock with
  | nil => rfl
  | cons iss rest ih => simp [emitRecords, ih]

/-- The part of a ledger record that does not come from the per-emit
uuid/clock. -/
def stripVolatile (r : LedgerRecord) : String × Option String × String × String × Option Nat × Ctx :=
  (r.filename, r.sha256, r.rule, r.message, r.row, r.meta)

theorem emitRecords_stripVolatile (fn : String) (sha : Option String) (ctx : Ctx) :
    ∀ c c2 issues, (emitRecords fn sha ctx c issues).map stripVolatile
      = (emitRecords fn sha ctx c2 issues).map stripVolatile := by
  intro c c2 issues
  induction issues generalizing c c2 with
  | nil => rfl
  | cons iss rest ih => simp [emitRecords, stripVolatile, ih c.succ c2.succ]

theorem runChain_append (vs ws : List Validator) (store : Store) (fn : String) (f : CFile) :
    ∀ ctx, runChain (vs ++ ws) store fn f ctx
      = match runChain vs store fn f ctx with
        | .passed ctx2 => runChain ws store fn f ctx2
        | out => out := by
  intro ctx
  induction vs generalizing ctx with
  | nil => rfl
  | cons v rest ih =>
      simp only [List.cons_append, runChain]
      cases v.validate fn f ctx store with
      | error e => rfl
      | ok res =>
          by_cases hok : res.ok
          · simp [hok, ih]
          · simp [hok]

theorem successPath_ledger (cfg : PConfig) (store : Store) (nowDt : DateTime)
    (fn : String) (f : CFile) (ctx : Ctx) (recs : List LedgerRecord) :
    (successPath cfg store nowDt fn f ctx recs).ledger = recs := by
  unfold successPath
  cases shaOf f ctx with
  | error e => rfl
  | ok sha =>
      by_cases hg : (!cfg.dryRun && !cfg.noMove) = true <;> simp [hg]

theorem successPath_result (cfg cfg2 : PConfig) (store store2 : Store) (nowDt nowDt2 : DateTime)
    (fn : String) (f : CFile) (ctx : Ctx) (recs recs2 : List LedgerRecord) :
    (successPath cfg store nowDt fn f ctx recs).result
      = (successPath cfg2 store2 nowDt2 fn f ctx recs2).result := by
  unfold successPath
  cases shaOf f ctx with
  | error e => rfl
  | ok sha =>
      by_cases hg : (!cfg.dryRun && !cfg.noMove) = true
        <;> by_cases hg2 : (!cfg2.dryRun && !cfg2.noMove) = true
        <;> simp [hg, hg2]

/-- The ledger lines and the returned value of `process_file` do not depend
on the configuration: all emits happen before the dry-run/no-move branches. -/
theorem process_file_config_irrelevant (cfg cfg2 : PConfig) (vs : List Validator)
    (store : Store) (clock : Nat) (nowDt nowDt2 : DateTime) (fn : String) (f : CFile) :
    (Pipeline.process_file cfg vs store clock nowDt fn f).ledger
        = (Pipeline.process_file cfg2 vs store clock nowDt2 fn f).ledger
      ∧ (Pipeline.process_file cfg vs store clock nowDt fn f).result
        = (Pipeline.process_file cfg2 vs store clock nowDt2 fn f).result := by
  unfold Pipeline.process_file
  cases hch : runChain vs store fn f [] with
  | crash rule e ctx =>
      cases ErrorLogger.emit clock fn rule ("validator exception: " ++ e) none (some f) [] with
      | error u => exact ⟨rfl, rfl⟩
      | ok r => exact ⟨rfl, rfl⟩
  | failed issues ctx =>
      simp only []
      cases hem : emitAll fn f ctx clock issues with
      | mk recs crashed =>
          cases crashed with
          | true => exact ⟨rfl, rfl⟩
          | false =>
              by_cases hiss : issues.isEmpty
              · simp only [hiss, if_true, if_false, Bool.false_eq_true, ite_true, ite_false]
                exact ⟨(successPath_ledger ..).trans (successPath_ledger ..).symm,
                        successPath_result ..⟩
              · simp only [hiss]
                by_cases h1 : (!cfg.dryRun && !cfg.noMove) = true
                  <;> by_cases h2 : (!cfg2.dryRun && !cfg2.noMove) = true
                  <;> simp [h1, h2]
  | passed ctx =>
      exact ⟨(successPath_ledger ..).trans (successPath_ledger ..).symm,
              successPath_result ..⟩

/-- With `dryRun` or `noMove` set, `process_file` leaves the seen-file store
untouched and moves nothing. -/
theorem process_file_no_side_effects (cfg : PConfig) (vs : List Validator)
    (store : Store) (clock : Nat) (nowDt : DateTime) (fn : String) (f : CFile)
    (hcfg : cfg.dryRun = true ∨ cfg.noMove = true) :
    (Pipeline.process_file cfg vs store clock nowDt fn f).store = store
      ∧ (Pipeline.process_file cfg vs store clock nowDt fn f).moves = [] := by
  have hguard : (!cfg.dryRun && !cfg.noMove) = false := by
    rcases hcfg with h | h <;> simp [h]
  unfold Pipeline.process_file
  cases hch : runChain vs store fn f [] with
  | crash rule e ctx =>
      rcases hem : ErrorLogger.emit clock fn rule ("validator exception: " ++ e) none (some f) []
        with u | r <;> simp [hem]
  | failed issues ctx =>
      simp only []
      cases hem : emitAll fn f ctx clock issues with
      | mk recs crashed =>
          cases crashed with
          | true => exact ⟨rfl, rfl⟩
          | false =>
              by_cases hiss : issues.isEmpty
              · simp only [hiss, ite_true, ite_false]
                unfold successPath
                rcases hsha : shaOf f ctx with e | sha <;> simp [hsha, hguard]
              · simp [hiss, hguard]
  | passed ctx =>
      unfold successPath
      rcases hsha : shaOf f ctx with e | sha <;> simp [hsha, hguard]

/-- The context after all eight default checks have run on a file: the
filename check contributes `dt` and `ts`, the uniqueness check `sha`. -/
def acceptedCtx (dt : DateTime) (ts sha : String) : Ctx :=
  [("dt", CtxVal.dt dt), ("ts", CtxVal.str ts), ("sha", CtxVal.str sha)]

/-- Forward evaluation of the default chain on a file satisfying every
check. -/
theorem chain_passes (store : Store) (fn : String) (f : CFile) (ts : String) (dt : DateTime)
    (hfm : fnameMatch fn = some ts) (hdt : parseDt14 ts = some dt)
    (hr : f.readable = true) (hs : ¬f.size = 0) (hcsv : f.csvError = none)
    (hhd : f.records.head? = some EXPECTED_HEADERS)
    (hrs : RowShapeValidator.issuesFrom 2 (f.records.drop 1) = [])
    (hvd : ValueDomainValidator.issuesFrom EXPECTED_HEADERS 2 (dictRows f.records) = .ok [])
    (hdup : DuplicateBatchValidator.issuesFrom EXPECTED_HEADERS [] 2 (dictRows f.records) = .ok [])
    (hseen : Tracker.is_seen store (sha256Hex f.bytes) = false) :
    runChain DEFAULT_PIPELINE store fn f []
      = .passed (acceptedCtx dt ts (sha256Hex f.bytes)) := by
  have hrs2 : RowShapeValidator.issuesFrom 2 f.records.tail = [] := by
    simpa [List.drop_one] using hrs
  simp [hrs2, DEFAULT_PIPELINE, runChain, FilenameValidator.v, FilenameValidator.validate,
    hfm, hdt, NonEmptyValidator.v, NonEmptyValidator.validate, hr, hs,
    CSVParseValidator.v, CSVParseValidator.validate, hcsv,
    HeaderValidator.v, HeaderValidator.validate, hhd,
    RowShapeValidator.v, RowShapeValidator.validate, hrs,
    ValueDomainValidator.v, ValueDomainValidator.validate, hvd,
    DuplicateBatchValidator.v, DuplicateBatchValidator.validate, hdup,
    UniquenessValidator.v, UniquenessValidator.validate, Tracker.hash_file, hseen,
    ctxUpdate, ctxSet, acceptedCtx]

/-- Forward evaluation of the default chain when the file satisfies the
first seven checks but its digest is already recorded: it fails at the
uniqueness check with that check's single issue, the digest still published
into the context. -/
theorem chain_seen_fails (store : Store) (fn : String) (f : CFile) (ts : String) (dt : DateTime)
    (hfm : fnameMatch fn = some ts) (hdt : parseDt14 ts = some dt)
    (hr : f.readable = true) (hs : ¬f.size = 0) (hcsv : f.csvError = none)
    (hhd : f.records.head? = some EXPECTED_HEADERS)
    (hrs : RowShapeValidator.issuesFrom 2 (f.records.drop 1) = [])
    (hvd : ValueDomainValidator.issuesFrom EXPECTED_HEADERS 2 (dictRows f.records) = .ok [])
    (hdup : DuplicateBatchValidator.issuesFrom EXPECTED_HEADERS [] 2 (dictRows f.records) = .ok [])
    (hseen : Tracker.is_seen store (sha256Hex f.bytes) = true) :
    runChain DEFAULT_PIPELINE store fn f []
      = .failed [⟨"file_uniqueness", "duplicate file (sha256)", none⟩]
          (acceptedCtx dt ts (sha256Hex f.bytes)) := by
  have hrs2 : RowShapeValidator.issuesFrom 2 f.records.tail = [] := by
    simpa [List.drop_one] using hrs
  simp [hrs2, DEFAULT_PIPELINE, runChain, FilenameValidator.v, FilenameValidator.validate,
    hfm, hdt, NonEmptyValidator.v, NonEmptyValidator.validate, hr, hs,
    CSVParseValidator.v, CSVParseValidator.validate, hcsv,
    HeaderValidator.v, HeaderValidator.validate, hhd,
    RowShapeValidator.v, RowShapeValidator.validate, hrs,
    ValueDomainValidator.v, ValueDomainValidator.validate, hvd,
    DuplicateBatchValidator.v, DuplicateBatchValidator.validate, hdup,
    UniquenessValidator.v, UniquenessValidator.validate, Tracker.hash_file, hseen,
    ctxUpdate, ctxSet, acceptedCtx]

/-- Inversion: if the default chain reports success, every check's condition
held, and the final context is exactly `acceptedCtx`. -/
theorem chain_passed_inv (store : Store) (fn : String) (f : CFile) (ctx : Ctx)
    (h : runChain DEFAULT_PIPELINE store fn f [] = .passed ctx) :
    ∃ ts dt, fnameMatch fn = some ts ∧ parseDt14 ts = some dt ∧ f.readable = true
      ∧ ¬f.size = 0 ∧ f.csvError = none ∧ f.records.head? = some EXPECTED_HEADERS
      ∧ RowShapeValidator.issuesFrom 2 (f.records.drop 1) = []
      ∧ ValueDomainValidator.issuesFrom EXPECTED_HEADERS 2 (dictRows f.records) = .ok []
      ∧ DuplicateBatchValidator.issuesFrom EXPECTED_HEADERS [] 2 (dictRows f.records) = .ok []
      ∧ Tracker.is_seen store (sha256Hex f.bytes) = false
      ∧ ctx = acceptedCtx dt ts (sha256Hex f.bytes) := by
  rcases hfm : fnameMatch fn with _ | ts
  · simp [DEFAULT_PIPELINE, runChain, FilenameValidator.v, FilenameValidator.validate, hfm] at h
  rcases hdt : parseDt14 ts with _ | dt
  · simp [DEFAULT_PIPELINE, runChain, FilenameValidator.v, FilenameValidator.validate,
      hfm, hdt] at h
  cases hr : f.readable with
  | false =>
      simp [DEFAULT_PIPELINE, runChain, FilenameValidator.v, FilenameValidator.validate,
        hfm, hdt, NonEmptyValidator.v, NonEmptyValidator.validate, hr] at h
  | true =>
  by_cases hs : f.size = 0
  · simp [DEFAULT_PIPELINE, runChain, FilenameValidator.v, FilenameValidator.validate,
      hfm, hdt, NonEmptyValidator.v, NonEmptyValidator.validate, hr, hs] at h
  cases hcsv : f.csvError with
  | some ce =>
      simp [DEFAULT_PIPELINE, runChain, FilenameValidator.v, FilenameValidator.validate,
        hfm, hdt, NonEmptyValidator.v, NonEmptyValidator.validate, hr, hs,
        CSVParseValidator.v, CSVParseValidator.validate, hcsv] at h
  | none =>
  cases hhd : f.records.head? with
  | none =>
      simp [DEFAULT_PIPELINE, runChain, FilenameValidator.v, FilenameValidator.validate,
        hfm, hdt, NonEmptyValidator.v, NonEmptyValidator.validate, hr, hs,
        CSVParseValidator.v, CSVParseValidator.validate, hcsv,
        HeaderValidator.v, HeaderValidator.validate, hhd] at h
  | some hdr =>
  by_cases hexp : hdr = EXPECTED_HEADERS
  case neg =>
    simp [DEFAULT_PIPELINE, runChain, FilenameValidator.v, FilenameValidator.validate,
      hfm, hdt, NonEmptyValidator.v, NonEmptyValidator.validate, hr, hs,
      CSVParseValidator.v, CSVParseValidator.validate, hcsv,
      HeaderValidator.v, HeaderValidator.validate, hhd, hexp] at h
  subst hexp
  by_cases hrs : RowShapeValidator.issuesFrom 2 (f.records.drop 1) = []
  case neg =>
    have hrs2 : ¬RowShapeValidator.issuesFrom 2 f.records.tail = [] := by
      simpa [List.drop_one] using hrs
    simp [DEFAULT_PIPELINE, runChain, FilenameValidator.v, FilenameValidator.validate,
      hfm, hdt, NonEmptyValidator.v, NonEmptyValidator.validate, hr, hs,
      CSVParseValidator.v, CSVParseValidator.validate, hcsv,
      HeaderValidator.v, HeaderValidator.validate, hhd,
      RowShapeValidator.v, RowShapeValidator.validate, hrs2] at h
  have hrs2 : RowShapeValidator.issuesFrom 2 f.records.tail = [] := by
    simpa [List.drop_one] using hrs
  cases hvd : ValueDomainValidator.issuesFrom EXPECTED_HEADERS 2 (dictRows f.records) with
  | error e =>
      simp [DEFAULT_PIPELINE, runChain, FilenameValidator.v, FilenameValidator.validate,
        hfm, hdt, NonEmptyValidator.v, NonEmptyValidator.validate, hr, hs,
        CSVParseValidator.v, CSVParseValidator.validate, hcsv,
        HeaderValidator.v, HeaderValidator.validate, hhd,
        RowShapeValidator.v, RowShapeValidator.validate, hrs2,
        ValueDomainValidator.v, ValueDomainValidator.validate, hvd] at h
  | ok vdiss =>
  by_cases hvde : vdiss = []
  case neg =>
    simp [DEFAULT_PIPELINE, runChain, FilenameValidator.v, FilenameValidator.validate,
      hfm, hdt, NonEmptyValidator.v, NonEmptyValidator.validate, hr, hs,
      CSVParseValidator.v, CSVParseValidator.validate, hcsv,
      HeaderValidator.v, HeaderValidator.validate, hhd,
      RowShapeValidator.v, RowShapeValidator.validate, hrs2,
      ValueDomainValidator.v, ValueDomainValidator.validate, hvd, hvde] at h
  subst hvde
  cases hdup : DuplicateBatchValidator.issuesFrom EXPECTED_HEADERS [] 2 (dictRows f.records) with
  | error e =>
      simp [DEFAULT_PIPELINE, runChain, FilenameValidator.v, FilenameValidator.validate,
        hfm, hdt, NonEmptyValidator.v, NonEmptyValidator.validate, hr, hs,
        CSVParseValidator.v, CSVParseValidator.validate, hcsv,
        HeaderValidator.v, HeaderValidator.validate, hhd,
        RowShapeValidator.v, RowShapeValidator.validate, hrs2,
        ValueDomainValidator.v, ValueDomainValidator.validate, hvd,
        DuplicateBatchValidator.v, DuplicateBatchValidator.validate, hdup] at h
  | ok diss =>
  by_cases hdupe : diss = []
  case neg =>
    simp [DEFAULT_PIPELINE, runChain, FilenameValidator.v, FilenameValidator.validate,
      hfm, hdt, NonEmptyValidator.v, NonEmptyValidator.validate, hr, hs,
      CSVParseValidator.v, CSVParseValidator.validate, hcsv,
      HeaderValidator.v, HeaderValidator.validate, hhd,
      RowShapeValidator.v, RowShapeValidator.validate, hrs2,
      ValueDomainValidator.v, ValueDomainValidator.validate, hvd,
      DuplicateBatchValidator.v, DuplicateBatchValidator.validate, hdup, hdupe] at h
  subst hdupe
  cases hseen : Tracker.is_seen store (sha256Hex f.bytes) with
  | true =>
      have := chain_seen_fails store fn f ts dt hfm hdt hr hs hcsv hhd hrs hvd hdup hseen
      rw [this] at h
      exact absurd h (by simp)
  | false =>
      have := chain_passes store fn f ts dt hfm hdt hr hs hcsv hhd hrs hvd hdup hseen
      rw [this] at h
      injection h with h2
      exact ⟨ts, dt, by simp [hfm], by simp [hdt], by simp [hr], hs, by simp [hcsv],
        by simp [hhd], hrs, by simp [hvd], by simp [hdup], by simp [hseen], h2.symm⟩

/-- A validator that never reports failure with an empty issue list (true of
every validator in the source: each failing `ValidationResult` is built with
at least one issue dict). -/
def neverEmptyFail (v : Validator) : Prop :=
  ∀ fn f ctx store res, v.validate fn f ctx store = .ok res → res.ok = false → res.issues ≠ []

theorem default_neverEmptyFail : ∀ v ∈ DEFAULT_PIPELINE, neverEmptyFail v := by
  intro v hv fn f ctx store res hval hok
  simp only [DEFAULT_PIPELINE, List.mem_cons, List.not_mem_nil, or_false] at hv
  rcases hv with h | h | h | h | h | h | h | h <;> subst h
  · replace hval : FilenameValidator.validate fn f ctx store = Except.ok res := hval
    unfold FilenameValidator.validate at hval
    rcases hfm : fnameMatch fn with _ | ts <;> simp only [hfm] at hval
    · injection hval with h2; subst h2; simp
    · rcases hdt : parseDt14 ts with _ | dt <;> simp only [hdt] at hval
      · injection hval with h2; subst h2; simp
      · injection hval with h2; subst h2; simp at hok
  · replace hval : NonEmptyValidator.validate fn f ctx store = Except.ok res := hval
    unfold NonEmptyValidator.validate at hval
    cases hr : f.readable <;> rw [hr] at hval
    · simp at hval
    · by_cases hs : f.size = 0 <;> simp [hs] at hval <;> rw [← hval]
      · simp
      · rw [← hval] at hok; simp at hok
  · replace hval : CSVParseValidator.validate fn f ctx store = Except.ok res := hval
    unfold CSVParseValidator.validate at hval
    cases hr : f.readable <;> rw [hr] at hval
    · simp at hval; rw [← hval]; simp
    · rcases hc : f.csvError with _ | ce <;> rw [hc] at hval <;> simp at hval
      · rw [← hval] at hok; simp at hok
      · rw [← hval]; simp
  · replace hval : HeaderValidator.validate fn f ctx store = Except.ok res := hval
    unfold HeaderValidator.validate at hval
    cases hr : f.readable <;> rw [hr] at hval
    · simp at hval
    · rcases hh : f.records.head? with _ | hdr <;> rw [hh] at hval
      · simp at hval; rw [← hval]; simp
      · by_cases he : hdr = EXPECTED_HEADERS <;> simp [he] at hval
        · rw [← hval] at hok; simp at hok
        · rw [← hval]; simp
  · replace hval : RowShapeValidator.validate fn f ctx store = Except.ok res := hval
    unfold RowShapeValidator.validate at hval
    cases hr : f.readable <;> rw [hr] at hval
    · simp at hval
    · simp at hval; rw [← hval] at hok ⊢; simp at hok ⊢
      simpa [List.isEmpty_iff] using hok
  · replace hval : ValueDomainValidator.validate fn f ctx store = Except.ok res := hval
    unfold ValueDomainValidator.validate at hval
    cases hr : f.readable <;> rw [hr] at hval
    · simp at hval
    · rcases hh : f.records.head? with _ | hdr <;> simp [hh] at hval
      · rw [← hval] at hok; simp at hok
      · rcases hvd : ValueDomainValidator.issuesFrom hdr 2 (dictRows f.records) with e | iss
          <;> simp only [hvd] at hval
        · simp at hval
        · simp at hval; rw [← hval] at hok ⊢; simp at hok ⊢
          simpa [List.isEmpty_iff] using hok
  · replace hval : DuplicateBatchValidator.validate fn f ctx store = Except.ok res := hval
    unfold DuplicateBatchValidator.validate at hval
    cases hr : f.readable <;> rw [hr] at hval
    · simp at hval
    · rcases hh : f.records.head? with _ | hdr <;> simp [hh] at hval
      · rw [← hval] at hok; simp at hok
      · rcases hd : DuplicateBatchValidator.issuesFrom hdr [] 2 (dictRows f.records) with e | iss
          <;> simp only [hd] at hval
        · simp at hval
        · simp at hval; rw [← hval] at hok ⊢; simp at hok ⊢
          simpa [List.isEmpty_iff] using hok
  · replace hval : UniquenessValidator.validate fn f ctx store = Except.ok res := hval
    unfold UniquenessValidator.validate at hval
    cases hhf : Tracker.hash_file f with
    | error e => rw [hhf] at hval; simp at hval
    | ok sha =>
        rw [hhf] at hval
        by_cases hseen : Tracker.is_seen store sha <;> simp [hseen] at hval
        · rw [← hval]; simp
        · rw [← hval] at hok; simp at hok

theorem runChain_failed_nonempty (vs : List Validator) (hvs : ∀ v ∈ vs, neverEmptyFail v)
    (store : Store) (fn : String) (f : CFile) :
    ∀ ctx issues ctx2, runChain vs store fn f ctx = .failed issues ctx2 → issues ≠ [] := by
  induction vs with
  | nil => intro ctx issues ctx2 h; simp [runChain] at h
  | cons v rest ih =>
      intro ctx issues ctx2 h
      unfold runChain at h
      cases hval : v.validate fn f ctx store with
      | error e => rw [hval] at h; simp at h
      | ok res =>
          rw [hval] at h
          by_cases hok : res.ok
          · simp only [hok, if_true] at h
            exact ih (fun w hw => hvs w (List.mem_cons_of_mem v hw)) _ _ _ h
          · simp only [Bool.not_eq_true] at hok
            simp only [hok, Bool.false_eq_true, if_false] at h
            injection h with h1 h2
            subst h1
            exact hvs v (List.mem_cons_self v rest) fn f ctx store res hval hok

/-- `process_file` returns `True` only when the whole chain passed. -/
theorem process_file_accepted_chain (cfg : PConfig) (vs : List Validator) (store : Store)
    (clock : Nat) (nowDt : DateTime) (fn : String) (f : CFile)
    (hvs : ∀ v ∈ vs, neverEmptyFail v)
    (h : (Pipeline.process_file cfg vs store clock nowDt fn f).result = some true) :
    ∃ ctx, runChain vs store fn f [] = .passed ctx := by
  unfold Pipeline.process_file at h
  cases hch : runChain vs store fn f [] with
  | crash rule e ctx =>
      rw [hch] at h
      rcases hem : ErrorLogger.emit clock fn rule ("validator exception: " ++ e) none (some f) []
        with u | r <;> simp [hem] at h
  | failed issues ctx =>
      rw [hch] at h
      have hne := runChain_failed_nonempty vs hvs store fn f [] issues ctx hch
      simp only [] at h
      cases hem : emitAll fn f ctx clock issues with
      | mk recs crashed =>
          rw [hem] at h
          cases crashed with
          | true => simp at h
          | false =>
              have : issues.isEmpty = false := by simpa [List.isEmpty_iff] using hne
              simp only [this] at h
              by_cases hg : (!cfg.dryRun && !cfg.noMove) = true <;> simp [hg] at h
  | passed ctx => exact ⟨ctx, rfl⟩

theorem ctxGet_acceptedCtx_sha (dt : DateTime) (ts sha : String) :
    ctxGet (acceptedCtx dt ts sha) "sha" = some (CtxVal.str sha) := by
  simp [acceptedCtx, ctxGet]

theorem ctxGet_acceptedCtx_dt (dt : DateTime) (ts sha : String) :
    ctxGet (acceptedCtx dt ts sha) "dt" = some (CtxVal.dt dt) := by
  simp [acceptedCtx, ctxGet]

/-- What `process_file` does after the chain passed with the canonical
context. -/
theorem process_file_passed_out (cfg : PConfig) (store : Store) (clock : Nat)
    (nowDt : DateTime) (fn : String) (f : CFile) (dt : DateTime) (ts : String)
    (hch : runChain DEFAULT_PIPELINE store fn f []
      = .passed (acceptedCtx dt ts (sha256Hex f.bytes))) :
    Pipeline.process_file cfg DEFAULT_PIPELINE store clock nowDt fn f
      = if !cfg.dryRun && !cfg.noMove then
          ⟨[], Tracker.mark_seen store fn (sha256Hex f.bytes) (fmtDate nowDt),
            [(fn, cfg.archivePath ++ "/" ++ fmtDate dt ++ "/" ++ fn)], some true⟩
        else ⟨[], store, [], some true⟩ := by
  unfold Pipeline.process_file
  rw [hch]
  by_cases hg : (!cfg.dryRun && !cfg.noMove) = true <;>
    simp [hg, successPath, shaOf, dtOf, ctxGet_acceptedCtx_sha, ctxGet_acceptedCtx_dt,
      sha256Hex_ne_empty f.bytes]

/-- What `process_file` does after the chain failed with a nonempty issue
list on a readable (hence hashable) file. -/
theorem process_file_failed_out (cfg : PConfig) (vs : List Validator) (store : Store)
    (clock : Nat) (nowDt : DateTime) (fn : String) (f : CFile)
    (issues : List Issue) (ctx : Ctx)
    (hch : runChain vs store fn f [] = .failed issues ctx)
    (hne : issues ≠ []) (hr : f.readable = true) :
    Pipeline.process_file cfg vs store clock nowDt fn f
      = ⟨emitRecords fn (some (sha256Hex f.bytes)) ctx clock issues, store,
          if !cfg.dryRun && !cfg.noMove then
            [(fn, "data/rejected/" ++ fmtDate nowDt ++ "/" ++ fn)]
          else [], some false⟩ := by
  unfold Pipeline.process_file
  rw [hch]
  simp only [emitAll_readable fn f ctx hr clock issues]
  have hie : issues.isEmpty = false := by simpa [List.isEmpty_iff] using hne
  simp only [hie]
  by_cases hg : (!cfg.dryRun && !cfg.noMove) = true <;> simp [hg]

/-! ## Concrete fixtures used by witnesses and counterexamples -/

/-- The data row of end-to-end scenario A: `1,12:00:00,0.1,...,0.1`. -/
def sampleRow : List String := ["1", "12:00:00"] ++ List.replicate 10 "0.1"

/-- Scenario A file: exact header plus one well-formed row. -/
def fileA : CFile := ⟨[1, 2], 30, [EXPECTED_HEADERS, sampleRow], true, none⟩

def fnA : String := "MED_DATA_20240101120000.csv"

def cfgFull : PConfig := ⟨false, false, "data/archive"⟩

def cfgDry : PConfig := ⟨true, false, "data/archive"⟩

def cfgNoMove : PConfig := ⟨false, true, "data/archive"⟩

/-- An arbitrary wall-clock datetime, distinct from the filename-embedded
ones, to observe which of the two a computation used. -/
def nowD : DateTime := ⟨2025, 6, 7, 1, 2, 3⟩

/-- A file whose header is wrong and whose (single) data row would also fail
the value-domain check: used to observe the short-circuit. -/
def fileC1 : CFile := ⟨[3], 20, [["batch_id", "time"], ["x", "25:99:99"]], true, none⟩

def preC1 : List Validator :=
  [FilenameValidator.v, NonEmptyValidator.v, CSVParseValidator.v]

def postC1 : List Validator :=
  [RowShapeValidator.v, ValueDomainValidator.v, DuplicateBatchValidator.v,
   UniquenessValidator.v]

/-- The context published by the filename check for `fnA`. -/
def ctxA : Ctx :=
  [("dt", CtxVal.dt ⟨2024, 1, 1, 12, 0, 0⟩), ("ts", CtxVal.str "20240101120000")]

/-! ## Claim C1 -/

/-- Claim C1: the pipeline runs the checks in their fixed declared order
(filename-format, non-empty, parseability, header, row-shape, value-domain,
duplicate-batch-id, uniqueness) and stops at the first check whose result is
not ok: the validators after the failing one are irrelevant to the outcome
(no later check runs), and the ledger receives exactly the failing check's
issues. -/
theorem c1_chain_short_circuit (pre post : List Validator) (v : Validator) (cfg : PConfig)
    (store : Store) (clock : Nat) (nowDt : DateTime) (fn : String) (f : CFile)
    (ctx : Ctx) (res : VResult)
    (hpre : runChain pre store fn f [] = .passed ctx)
    (hv : v.validate fn f ctx store = .ok res)
    (hfail : res.ok = false) (hiss : res.issues ≠ [])
    (hr : f.readable = true) :
    DEFAULT_PIPELINE.map Validator.vname
      = [some "filename_format", some "non_empty", some "csv_parse", some "header_check",
         some "row_shape", some "value_domain", some "duplicate_batch_id",
         some "file_uniqueness"]
    ∧ Pipeline.process_file cfg (pre ++ v :: post) store clock nowDt fn f
        = Pipeline.process_file cfg (pre ++ [v]) store clock nowDt fn f
    ∧ (Pipeline.process_file cfg (pre ++ v :: post) store clock nowDt fn f).ledger.map
          (fun r => (r.rule, r.message, r.row))
        = res.issues.map (fun i => (i.rule, i.message, i.row)) := by
  have hchain : ∀ ws, runChain (pre ++ v :: ws) store fn f []
      = .failed res.issues (ctxUpdate ctx res.meta) := by
    intro ws
    rw [runChain_append, hpre]
    simp [runChain, hv, hfail]
  refine ⟨by rfl, ?_, ?_⟩
  · have h1 := hchain post
    have h2 := hchain []
    unfold Pipeline.process_file
    rw [h1, h2]
  · rw [process_file_failed_out cfg (pre ++ v :: post) store clock nowDt fn f res.issues
      (ctxUpdate ctx res.meta) (hchain post) hiss hr]
    exact emitRecords_fields fn (some (sha256Hex f.bytes)) (ctxUpdate ctx res.meta) clock res.issues

/-- Witness for C1: a file whose header is wrong (and whose row would also
fail the value-domain check) logs exactly the header check's single issue,
and the checks after the header check are irrelevant. -/
theorem c1_chain_short_circuit_witness :
    Pipeline.process_file cfgFull (preC1 ++ HeaderValidator.v :: postC1) [] 0 nowD fnA fileC1
        = Pipeline.process_file cfgFull (preC1 ++ [HeaderValidator.v]) [] 0 nowD fnA fileC1
      ∧ (Pipeline.process_file cfgFull (preC1 ++ HeaderValidator.v :: postC1) [] 0 nowD
            fnA fileC1).ledger.map (fun r => (r.rule, r.message, r.row))
        = [("header_check", "header mismatch: " ++ pyReprStrList ["batch_id", "time"], none)] := by
  have h := c1_chain_short_circuit preC1 postC1 HeaderValidator.v cfgFull [] 0 nowD fnA fileC1
    ctxA ⟨false, [⟨"header_check", "header mismatch: " ++ pyReprStrList ["batch_id", "time"],
      none⟩], []⟩ (by decide) (by decide) (by decide) (by decide) (by decide)
  exact ⟨h.2.1, h.2.2⟩

/-! ## Claim C3 -/

/-- A file that exists in the pipeline's bookkeeping but cannot be opened
(e.g. deleted or permission-denied between checks). -/
def fileUnreadable : CFile := ⟨[9], 10, [], false, none⟩

/-- Claim C3 counterexample: `ErrorLogger.emit` CAN raise.  When a source
path is given but hashing it fails (the file cannot be opened),
`self._sha256(path)` raises out of `emit` — there is no `try` around it in
the source (lines 49-61) — so no record with a null digest is appended; the
claim that emit never raises is false at this input. -/
theorem c3_emit_raises_counterexample :
    ErrorLogger.emit 0 "a.csv" "some_rule" "some message" none (some fileUnreadable) []
      = .error () := by decide

/-- Claim C3 as amended: `emit` writes a null digest only when no source
path is given; when a path is given the file is re-hashed with no exception
handler, so an unreadable path makes `emit` itself raise, and a readable
path yields a record carrying the file's digest. -/
theorem c3_emit_amended (clock : Nat) (fn rule msg : String) (row : Option Nat)
    (meta : Ctx) (f : CFile) :
    ErrorLogger.emit clock fn rule msg row none meta
        = .ok ⟨guidOf clock, fn, none, rule, msg, row, timeOf clock, meta⟩
    ∧ (f.readable = false →
        ErrorLogger.emit clock fn rule msg row (some f) meta = .error ())
    ∧ (f.readable = true →
        ErrorLogger.emit clock fn rule msg row (some f) meta
          = .ok ⟨guidOf clock, fn, some (sha256Hex f.bytes), rule, msg, row,
              timeOf clock, meta⟩) := by
  refine ⟨rfl, ?_, ?_⟩ <;> intro h <;> simp [ErrorLogger.emit, ErrorLogger.digestOf, h]

theorem c3_emit_amended_witness :
    fileUnreadable.readable = false
    ∧ ErrorLogger.emit 0 "a.csv" "some_rule" "some message" none (some fileUnreadable) []
        = .error () :=
  ⟨by decide, (c3_emit_amended 0 "a.csv" "some_rule" "some message" none []
      fileUnreadable).2.1 (by decide)⟩

/-! ## Claim C5 -/

/-- Claim C5 counterexample: with `noMove` set (and `dryRun` unset),
processing scenario A's passing file skips the tracker write as well as the
move — the store stays empty even though the file is accepted, contradicting
the claim that only the filesystem move is skipped.  (`tracker.mark_seen` is
inside the same `if not self.dry_run and not self.no_move:` guard as
`shutil.move`, src/app.py lines 268-273.) -/
theorem c5_no_move_counterexample :
    (Pipeline.process_file cfgNoMove DEFAULT_PIPELINE [] 0 nowD fnA fileA).result = some true
    ∧ (Pipeline.process_file cfgNoMove DEFAULT_PIPELINE [] 0 nowD fnA fileA).store = []
    ∧ (Pipeline.process_file cfgNoMove DEFAULT_PIPELINE [] 0 nowD fnA fileA).moves = [] := by
  refine ⟨?_, ?_, ?_⟩ <;> decide

/-- Claim C5 as amended: with `noMove` set, `process_file` skips both the
filesystem move and the tracker write, while validation and ledger logging
are unchanged (same ledger lines and same returned value as the same
configuration without `noMove`). -/
theorem c5_no_move_amended (cfg : PConfig) (vs : List Validator) (store : Store)
    (clock : Nat) (nowDt : DateTime) (fn : String) (f : CFile)
    (hnm : cfg.noMove = true) :
    (Pipeline.process_file cfg vs store clock nowDt fn f).store = store
    ∧ (Pipeline.process_file cfg vs store clock nowDt fn f).moves = []
    ∧ (Pipeline.process_file cfg vs store clock nowDt fn f).ledger
        = (Pipeline.process_file { cfg with noMove := false } vs store clock nowDt fn f).ledger
    ∧ (Pipeline.process_file cfg vs store clock nowDt fn f).result
        = (Pipeline.process_file { cfg with noMove := false } vs store clock nowDt fn f).result := by
  have h1 := process_file_no_side_effects cfg vs store clock nowDt fn f (Or.inr hnm)
  have h2 := process_file_config_irrelevant cfg { cfg with noMove := false } vs store clock
    nowDt nowDt fn f
  exact ⟨h1.1, h1.2, h2.1, h2.2⟩

theorem c5_no_move_amended_witness :
    cfgNoMove.noMove = true
    ∧ (Pipeline.process_file cfgNoMove DEFAULT_PIPELINE [] 0 nowD fnA fileA).store = []
    ∧ (Pipeline.process_file cfgNoMove DEFAULT_PIPELINE [] 0 nowD fnA fileA).moves = [] := by
  have h := c5_no_move_amended cfgNoMove DEFAULT_PIPELINE [] 0 nowD fnA fileA (by decide)
  exact ⟨by decide, h.1, h.2.1⟩

/-! ## Claim C6 -/

/-- Claim C6 counterexample: an unreadable file under a valid name makes the
non-empty check raise (`path.stat()`); the pipeline's exception handler then
calls `logger.emit(..., path=path)`, whose digest computation re-opens the
unreadable file and raises too, so the exception escapes `process_file`: NO
ledger record is written (let alone one with rule `validator_error`) and no
boolean is returned. -/
theorem c6_validator_error_counterexample :
    Pipeline.process_file cfgFull DEFAULT_PIPELINE [] 0 nowD fnA fileUnreadable
      = ⟨[], [], [], none⟩ := by decide

/-- Claim C6 as amended: when a check raises, the chain stops there with
rule `getattr(v, 'name', 'validator_error')` — the raising check's declared
name, `validator_error` only for a nameless check — and the pipeline
performs no move and no tracker write.  If the file is still hashable the
single exception record is written and `process_file` returns failure; if
the ledger's own digest computation raises (unreadable file), the exception
escapes `process_file` with nothing written. -/
theorem c6_validator_exception_amended (cfg : PConfig) (vs : List Validator) (store : Store)
    (clock : Nat) (nowDt : DateTime) (fn : String) (f : CFile) (rule e : String) (ctx : Ctx)
    (hcrash : runChain vs store fn f [] = .crash rule e ctx) :
    (∀ v vs2 ctx2 e2, v.validate fn f ctx2 store = .error e2 →
        runChain (v :: vs2) store fn f ctx2 = .crash (v.vname.getD "validator_error") e2 ctx2)
    ∧ (Pipeline.process_file cfg vs store clock nowDt fn f).store = store
    ∧ (Pipeline.process_file cfg vs store clock nowDt fn f).moves = []
    ∧ (f.readable = true →
        Pipeline.process_file cfg vs store clock nowDt fn f
          = ⟨[⟨guidOf clock, fn, some (sha256Hex f.bytes), rule,
              "validator exception: " ++ e, none, timeOf clock, []⟩], store, [], some false⟩)
    ∧ (f.readable = false →
        Pipeline.process_file cfg vs store clock nowDt fn f = ⟨[], store, [], none⟩) := by
  refine ⟨?_, ?_⟩
  · intro v vs2 ctx2 e2 hval
    simp [runChain, hval]
  · unfold Pipeline.process_file
    rw [hcrash]
    cases hr : f.readable
    · simp [ErrorLogger.emit, ErrorLogger.digestOf, hr]
    · simp [ErrorLogger.emit, ErrorLogger.digestOf, hr]

/-- A (test-harness style) check object that always raises: `Pipeline`
accepts any validator list, so this realizes the raising-check scenario on a
hashable file. -/
def boomValidator : Validator := ⟨some "boom", fun _ _ _ _ => .error "kaboom"⟩

theorem c6_validator_exception_amended_witness :
    runChain [boomValidator] [] fnA fileA [] = .crash "boom" "kaboom" []
    ∧ Pipeline.process_file cfgFull [boomValidator] [] 0 nowD fnA fileA
      = ⟨[⟨guidOf 0, fnA, some (sha256Hex fileA.bytes), "boom", "validator exception: kaboom",
          none, timeOf 0, []⟩], [], [], some false⟩ := by
  have h := c6_validator_exception_amended cfgFull [boomValidator] [] 0 nowD fnA fileA
    "boom" "kaboom" [] (by decide)
  exact ⟨by decide, h.2.2.2.1 (by decide)⟩

/-! ## Claim C8 -/

theorem emitAll_clock (fn : String) (f : CFile) (ctx : Ctx) :
    ∀ c c2 issues,
      (emitAll fn f ctx c issues).1.map stripVolatile
          = (emitAll fn f ctx c2 issues).1.map stripVolatile
      ∧ (emitAll fn f ctx c issues).2 = (emitAll fn f ctx c2 issues).2 := by
  intro c c2 issues
  cases hr : f.readable with
  | true =>
      rw [emitAll_readable fn f ctx hr c issues, emitAll_readable fn f ctx hr c2 issues]
      exact ⟨emitRecords_stripVolatile fn (some (sha256Hex f.bytes)) ctx c c2 issues, rfl⟩
  | false =>
      cases issues with
      | nil => exact ⟨rfl, rfl⟩
      | cons iss rest =>
          rw [emitAll_unreadable fn f ctx hr c iss rest,
            emitAll_unreadable fn f ctx hr c2 iss rest]
          exact ⟨rfl, rfl⟩

/-- The emit clock (uuid/timestamp source) and the wall-clock datetime do
not affect the returned value, nor the ledger lines beyond their generated
`guid` and `occurred_at` fields. -/
theorem process_file_clock_irrelevant (cfg : PConfig) (vs : List Validator) (store : Store)
    (c1 c2 : Nat) (nowDt nowDt2 : DateTime) (fn : String) (f : CFile) :
    (Pipeline.process_file cfg vs store c1 nowDt fn f).ledger.map stripVolatile
        = (Pipeline.process_file cfg vs store c2 nowDt2 fn f).ledger.map stripVolatile
    ∧ (Pipeline.process_file cfg vs store c1 nowDt fn f).result
        = (Pipeline.process_file cfg vs store c2 nowDt2 fn f).result := by
  unfold Pipeline.process_file
  cases hch : runChain vs store fn f [] with
  | crash rule e ctx =>
      cases hr : f.readable
      · simp [ErrorLogger.emit, ErrorLogger.digestOf, hr]
      · simp [ErrorLogger.emit, ErrorLogger.digestOf, hr, stripVolatile]
  | failed issues ctx =>
      have hclk := emitAll_clock fn f ctx c1 c2 issues
      simp only []
      cases hem1 : emitAll fn f ctx c1 issues with
      | mk recs1 crashed1 =>
          cases hem2 : emitAll fn f ctx c2 issues with
          | mk recs2 crashed2 =>
              rw [hem1, hem2] at hclk
              simp only [] at hclk
              obtain ⟨hrecs, hcrashed⟩ := hclk
              subst hcrashed
              cases crashed1 with
              | true => exact ⟨hrecs, rfl⟩
              | false =>
                  by_cases hiss : issues.isEmpty
                  · simp only [hiss, Bool.false_eq_true, if_false, ite_true, ite_false, if_true]
                    constructor
                    · rw [successPath_ledger, successPath_ledger]; exact hrecs
                    · exact successPath_result ..
                  · simp only [hiss, Bool.false_eq_true, if_false, ite_false]
                    by_cases hg : (!cfg.dryRun && !cfg.noMove) = true <;> simp [hg]
                    · exact hrecs
                    · exact hrecs
  | passed ctx =>
      constructor
      · rw [successPath_ledger, successPath_ledger]
      · exact successPath_result ..

/-- Claim C8 counterexample: the ledger lines carry a freshly generated
uuid1 and an emit-time timestamp, so two dry runs over the same failing
input do not produce byte-identical ledger output — the second run's records
draw later uuid/timestamps (modelled by the advanced emit counter). -/
theorem c8_dry_run_counterexample :
    (Pipeline.process_file cfgDry DEFAULT_PIPELINE [] 0 nowD "x.csv" fileA).ledger
      ≠ (Pipeline.process_file cfgDry DEFAULT_PIPELINE [] 1 nowD "x.csv" fileA).ledger := by
  decide

/-- Claim C8 as amended: two `dryRun` runs over the same input produce
identical ledger output up to the per-record generated `guid` and
`occurred_at` fields, return the same value, and neither run mutates the
seen-store or moves any file. -/
theorem c8_dry_run_amended (cfg : PConfig) (vs : List Validator) (store : Store)
    (c1 c2 : Nat) (nowDt nowDt2 : DateTime) (fn : String) (f : CFile)
    (hdry : cfg.dryRun = true) :
    (Pipeline.process_file cfg vs store c1 nowDt fn f).ledger.map stripVolatile
        = (Pipeline.process_file cfg vs store c2 nowDt2 fn f).ledger.map stripVolatile
    ∧ (Pipeline.process_file cfg vs store c1 nowDt fn f).result
        = (Pipeline.process_file cfg vs store c2 nowDt2 fn f).result
    ∧ (Pipeline.process_file cfg vs store c1 nowDt fn f).store = store
    ∧ (Pipeline.process_file cfg vs store c1 nowDt fn f).moves = []
    ∧ (Pipeline.process_file cfg vs store c2 nowDt2 fn f).store = store
    ∧ (Pipeline.process_file cfg vs store c2 nowDt2 fn f).moves = [] := by
  have h1 := process_file_clock_irrelevant cfg vs store c1 c2 nowDt nowDt2 fn f
  have h2 := process_file_no_side_effects cfg vs store c1 nowDt fn f (Or.inl hdry)
  have h3 := process_file_no_side_effects cfg vs store c2 nowDt2 fn f (Or.inl hdry)
  exact ⟨h1.1, h1.2, h2.1, h2.2, h3.1, h3.2⟩

theorem c8_dry_run_amended_witness :
    cfgDry.dryRun = true
    ∧ (Pipeline.process_file cfgDry DEFAULT_PIPELINE [] 0 nowD "x.csv" fileA).ledger.map
          stripVolatile
        = (Pipeline.process_file cfgDry DEFAULT_PIPELINE [] 1 nowD "x.csv" fileA).ledger.map
          stripVolatile
    ∧ (Pipeline.process_file cfgDry DEFAULT_PIPELINE [] 0 nowD "x.csv" fileA).store = []
    ∧ (Pipeline.process_file cfgDry DEFAULT_PIPELINE [] 0 nowD "x.csv" fileA).moves = [] := by
  have h := c8_dry_run_amended cfgDry DEFAULT_PIPELINE [] 0 1 nowD nowD "x.csv" fileA
    (by decide)
  exact ⟨by decide, h.1, h.2.2.1, h.2.2.2.1⟩

/-! ## Per-row characterization of the value-domain check -/

/-- The string value `row.get(col, '')` yields for a non-`None` field. -/
def dictValStr (fieldnames r : List String) (col : String) : String :=
  ((dictGet fieldnames r col).getD (some "")).getD ""

/-- The issues one reading column contributes for one row. -/
def readingIssueOf (col val : String) (i : Nat) : List Issue :=
  match parsePyFloat val with
  | none => [⟨"value_domain", col ++ " not float", some i⟩]
  | some fv =>
      if pyGe10 fv then
        [⟨"value_domain", col ++ " out of range: " ++ fmtPyFloat fv, some i⟩]
      else []

theorem readingIssues_eq (fieldnames r : List String) (i : Nat) :
    ∀ cols, (∀ col ∈ cols, dictGet fieldnames r col ≠ some none) →
      ValueDomainValidator.readingIssues fieldnames r i cols
        = .ok (cols.flatMap
            (fun col => readingIssueOf col (pyStrip (dictValStr fieldnames r col)) i)) := by
  intro cols
  induction cols with
  | nil => intro h; rfl
  | cons col rest ih =>
      intro h
      have hcol := h col (List.mem_cons_self col rest)
      have hrest : ∀ c ∈ rest, dictGet fieldnames r c ≠ some none :=
        fun c hc => h c (List.mem_cons_of_mem col hc)
      unfold ValueDomainValidator.readingIssues
      rcases hv : dictGet fieldnames r col with _ | v
      · simp only [hv, ih hrest]
        simp [readingIssueOf, dictValStr, hv]
      · cases v with
        | none => exact absurd hv hcol
        | some s =>
            simp only [hv, ih hrest]
            simp [readingIssueOf, dictValStr, hv]

/-- The issue list the value-domain loop body produces for one row. -/
def rowIssuesSpec (fieldnames r : List String) (i : Nat) : List Issue :=
  ValueDomainValidator.batchIssues fieldnames r i
    ++ (if !timestampRx (pyStrip (dictValStr fieldnames r "timestamp")) then
          [⟨"value_domain", "bad timestamp format", some i⟩]
        else [])
    ++ (EXPECTED_HEADERS.drop 2).flatMap
        (fun col => readingIssueOf col (pyStrip (dictValStr fieldnames r col)) i)

theorem rowIssues_eq (fieldnames r : List String) (i : Nat)
    (hts : dictGet fieldnames r "timestamp" ≠ some none)
    (hcols : ∀ col ∈ EXPECTED_HEADERS.drop 2, dictGet fieldnames r col ≠ some none) :
    ValueDomainValidator.rowIssues fieldnames r i = .ok (rowIssuesSpec fieldnames r i) := by
  unfold ValueDomainValidator.rowIssues
  rcases hv : dictGet fieldnames r "timestamp" with _ | v
  · simp only [hv, readingIssues_eq fieldnames r i _ hcols]
    simp [rowIssuesSpec, dictValStr, hv]
  · cases v with
    | none => exact absurd hv hts
    | some s =>
        simp only [hv, readingIssues_eq fieldnames r i _ hcols]
        simp [rowIssuesSpec, dictValStr, hv]

theorem batchIssues_row (fieldnames r : List String) (i : Nat) :
    ∀ iss ∈ ValueDomainValidator.batchIssues fieldnames r i, iss.row = some i := by
  intro iss h
  unfold ValueDomainValidator.batchIssues at h
  rcases hv : dictGet fieldnames r "batch_id" with _ | v
  · simp only [hv] at h
    rcases hp : parsePyInt (pyStrip ((Option.getD (none : Option (Option String)) (some "")).getD ""))
      with _ | b <;> simp only [hp] at h
    · simp at h; rw [h]
    · by_cases hb : b ≤ 0 <;> simp [hb] at h; rw [h]
  · cases v with
    | none => simp only [hv] at h; simp at h; rw [h]
    | some s =>
        simp only [hv] at h
        rcases hp : parsePyInt (pyStrip ((Option.getD (some (some s)) (some "")).getD ""))
          with _ | b <;> simp only [hp] at h
        · simp at h; rw [h]
        · by_cases hb : b ≤ 0 <;> simp [hb] at h; rw [h]

theorem readingIssueOf_row (col val : String) (i : Nat) :
    ∀ iss ∈ readingIssueOf col val i, iss.row = some i := by
  intro iss h
  unfold readingIssueOf at h
  rcases hp : parsePyFloat val with _ | fv <;> simp only [hp] at h
  · simp at h; rw [h]
  · by_cases hb : pyGe10 fv = true <;> simp [hb] at h; rw [h]

theorem rowIssuesSpec_row (fieldnames r : List String) (i : Nat) :
    ∀ iss ∈ rowIssuesSpec fieldnames r i, iss.row = some i := by
  intro iss h
  unfold rowIssuesSpec at h
  rcases List.mem_append.mp h with h2 | h2
  · rcases List.mem_append.mp h2 with h3 | h3
    · exact batchIssues_row fieldnames r i iss h3
    · by_cases ht : (!timestampRx (pyStrip (dictValStr fieldnames r "timestamp"))) = true
        <;> simp [ht] at h3
      rw [h3]
  · rcases List.mem_flatMap.mp h2 with ⟨col, hcol, hmem⟩
    exact readingIssueOf_row col (pyStrip (dictValStr fieldnames r col)) i iss hmem

/-- Flattening: each row at 0-based position `k` of the reader's row list
contributes its `rowIssues` computed at line number `i + k`, and all of them
land in the check's full issue list. -/
theorem issuesFrom_rowIssues (fieldnames : List String) :
    ∀ rows i L, ValueDomainValidator.issuesFrom fieldnames i rows = .ok L →
      ∀ k r, rows.get? k = some r →
        ∃ cur, ValueDomainValidator.rowIssues fieldnames r (i + k) = .ok cur
          ∧ ∀ x ∈ cur, x ∈ L := by
  intro rows
  induction rows with
  | nil => intro i L h k r hk; simp at hk
  | cons r0 rest ih =>
      intro i L h k r hk
      unfold ValueDomainValidator.issuesFrom at h
      rcases hrow : ValueDomainValidator.rowIssues fieldnames r0 i with e | cur0
      · simp [hrow] at h
      rcases hrest : ValueDomainValidator.issuesFrom fieldnames (i + 1) rest with e | L2
      · simp [hrow, hrest] at h
      rw [hrow, hrest] at h
      have h2 : cur0 ++ L2 = L := Except.ok.inj h
      clear h
      cases k with
      | zero =>
          simp only [List.get?] at hk
          injection hk with hk2
          subst hk2
          refine ⟨cur0, by simpa using hrow, fun x hx => ?_⟩
          rw [← h2]
          exact List.mem_append_left _ hx
      | succ k2 =>
          have hk2 : rest.get? k2 = some r := by simpa [List.get?] using hk
          obtain ⟨cur, hcur, hsub⟩ := ih (i + 1) L2 hrest k2 r hk2
          refine ⟨cur, ?_, fun x hx => ?_⟩
          · have harith : i + 1 + k2 = i + (k2 + 1) := by omega
            rw [← harith]
            exact hcur
          · rw [← h2]
            exact List.mem_append_right _ (hsub x hx)

/-- If no row makes a lookup return `None`, the check completes without
raising. -/
theorem issuesFrom_ok (fieldnames : List String) :
    ∀ rows i,
      (∀ r ∈ rows, dictGet fieldnames r "timestamp" ≠ some none
        ∧ ∀ col ∈ EXPECTED_HEADERS.drop 2, dictGet fieldnames r col ≠ some none) →
      ∃ L, ValueDomainValidator.issuesFrom fieldnames i rows = .ok L := by
  intro rows
  induction rows with
  | nil => intro i h; exact ⟨[], rfl⟩
  | cons r0 rest ih =>
      intro i h
      have h0 := h r0 (List.mem_cons_self r0 rest)
      obtain ⟨L2, hL2⟩ := ih (i + 1) (fun r hr => h r (List.mem_cons_of_mem r0 hr))
      refine ⟨rowIssuesSpec fieldnames r0 i ++ L2, ?_⟩
      unfold ValueDomainValidator.issuesFrom
      simp only [rowIssues_eq fieldnames r0 i h0.1 h0.2, hL2]

theorem get?_some_of_lt {α : Type} (l : List α) (j : Nat) (h : j < l.length) :
    ∃ v, l.get? j = some v := by
  cases hv : l.get? j with
  | none => rw [List.get?_eq_none] at hv; omega
  | some v => exact ⟨v, rfl⟩

theorem findIdx?_of_mem (l : List String) (a : String) (h : a ∈ l) :
    ∃ j, l.findIdx? (· = a) = some j ∧ j < l.length := by
  induction l with
  | nil => simp at h
  | cons x xs ih =>
      by_cases hx : x = a
      · refine ⟨0, ?_, by simp⟩
        simp [List.findIdx?_cons, hx]
      · have h2 : a ∈ xs := by
          rcases List.mem_cons.mp h with h3 | h3
          · exact absurd h3.symm hx
          · exact h3
        obtain ⟨j, hj, hlt⟩ := ih h2
        refine ⟨j + 1, ?_, by simp; omega⟩
        simp [List.findIdx?_cons, hx, hj]

/-- On a full-width row, every lookup the value-domain check performs finds a
present (non-`None`) field. -/
theorem dictGet_full (r : List String) (hlen : r.length = EXPECTED_HEADERS.length)
    (col : String) (hcol : col ∈ EXPECTED_HEADERS) :
    ∃ v, dictGet EXPECTED_HEADERS r col = some (some v) := by
  obtain ⟨j, hj, hlt⟩ := findIdx?_of_mem EXPECTED_HEADERS col hcol
  obtain ⟨v, hv⟩ := get?_some_of_lt r j (by omega)
  refine ⟨v, ?_⟩
  simp only [dictGet, hj]
  rw [show r[j]? = r.get? j from (List.get?_eq_getElem? r j).symm, hv]

/-! ## Row-shape check characterization -/

theorem rowShape_issuesFrom_mem :
    ∀ (rows : List (List String)) (start k : Nat) (r : List String),
      rows.get? k = some r → r.length ≠ EXPECTED_HEADERS.length →
      (⟨"row_shape", "row has " ++ toString r.length ++ " cols", some (start + k)⟩ : Issue)
        ∈ RowShapeValidator.issuesFrom start rows := by
  intro rows
  induction rows with
  | nil => intro start k r hk; simp at hk
  | cons r0 rest ih =>
      intro start k r hk hbad
      unfold RowShapeValidator.issuesFrom
      cases k with
      | zero =>
          simp only [List.get?] at hk
          injection hk with hk2
          subst hk2
          simp [hbad]
      | succ k2 =>
          have hk3 : rest.get? k2 = some r := by simpa [List.get?] using hk
          have harith : start + (k2 + 1) = start + 1 + k2 := by omega
          rw [harith]
          exact List.mem_append_right _ (ih (start + 1) k2 r hk3 hbad)

theorem rowShape_issuesFrom_sound :
    ∀ (rows : List (List String)) (start : Nat) (iss : Issue),
      iss ∈ RowShapeValidator.issuesFrom start rows →
      ∃ k r, rows.get? k = some r ∧ r.length ≠ EXPECTED_HEADERS.length
        ∧ iss.row = some (start + k) := by
  intro rows
  induction rows with
  | nil => intro start iss h; simp [RowShapeValidator.issuesFrom] at h
  | cons r0 rest ih =>
      intro start iss h
      unfold RowShapeValidator.issuesFrom at h
      rcases List.mem_append.mp h with h2 | h2
      · by_cases hb : r0.length ≠ EXPECTED_HEADERS.length
        · rw [if_pos hb, List.mem_singleton] at h2
          refine ⟨0, r0, rfl, hb, ?_⟩
          rw [h2]
          simp
        · rw [if_neg hb] at h2
          simp at h2
      · obtain ⟨k, r, hk, hbad, heq⟩ := ih (start + 1) iss h2
        refine ⟨k + 1, r, by simpa [List.get?] using hk, hbad, ?_⟩
        rw [heq]
        congr 1
        omega

/-- The value-domain check completes without raising on a file whose rows
all have the full 12 columns, returning exactly its accumulated issue list. -/
theorem valueDomain_validate_ok (fn : String) (store : Store) (f : CFile)
    (rows : List (List String))
    (hread : f.readable = true)
    (hrecs : f.records = EXPECTED_HEADERS :: rows)
    (hall : ∀ r2 ∈ rows, r2.length = EXPECTED_HEADERS.length) :
    ∃ L, ValueDomainValidator.validate fn f [] store = .ok ⟨L.isEmpty, L, []⟩
      ∧ ValueDomainValidator.issuesFrom EXPECTED_HEADERS 2 rows = .ok L := by
  have hconds : ∀ r2 ∈ rows, dictGet EXPECTED_HEADERS r2 "timestamp" ≠ some none
      ∧ ∀ col ∈ EXPECTED_HEADERS.drop 2, dictGet EXPECTED_HEADERS r2 col ≠ some none := by
    intro r2 hr2
    constructor
    · obtain ⟨v, hv⟩ := dictGet_full r2 (hall r2 hr2) "timestamp" (by decide)
      rw [hv]; simp
    · intro col hcol
      obtain ⟨v, hv⟩ := dictGet_full r2 (hall r2 hr2) col (List.drop_subset 2 EXPECTED_HEADERS hcol)
      rw [hv]; simp
  obtain ⟨L, hL⟩ := issuesFrom_ok EXPECTED_HEADERS rows 2 hconds
  have hfilter : rows.filter (fun r => !r.isEmpty) = rows := by
    rw [List.filter_eq_self]
    intro a ha
    have hl := hall a ha
    cases a with
    | nil => exact absurd hl (by decide)
    | cons x xs => simp
  refine ⟨L, ?_, hL⟩
  unfold ValueDomainValidator.validate
  rw [hread]
  simp only [Bool.not_true, Bool.false_eq_true, if_false, ite_false]
  rw [hrecs]
  simp only [List.head?, dictRows, List.drop, hfilter, hL]

/-! ## Claim C4 -/

/-- A file whose first (and only) data row is malformed: two columns. -/
def fileC4 : CFile := ⟨[4], 20, [EXPECTED_HEADERS, ["1", "12:00:00"]], true, none⟩

/-- Scenario C data row: reading3 is exactly 10.0. -/
def rowC9 : List String :=
  ["1", "12:00:00", "0.1", "0.1", "10.0", "0.1", "0.1", "0.1", "0.1", "0.1", "0.1", "0.1"]

def fileC9 : CFile := ⟨[5], 40, [EXPECTED_HEADERS, rowC9], true, none⟩

/-- Claim C4 counterexample: the row-shape check reports the FIRST data line
after the header as row 2, not row 1 — `enumerate(reader, start=2)` after
skipping the header numbers rows by physical line (header = line 1), not by
the claimed 1-based header-exclusive position. -/
theorem c4_row_numbering_counterexample :
    RowShapeValidator.validate fnA fileC4 [] []
        = .ok ⟨false, [⟨"row_shape", "row has 2 cols", some 2⟩], []⟩
    ∧ ∀ iss ∈ [(⟨"row_shape", "row has 2 cols", some 2⟩ : Issue)], iss.row ≠ some 1 :=
  ⟨by decide, by decide⟩

/-- Claim C4 as amended: the `row` field reported by the row-shape and
value-domain checks is the row's physical line number with the header as
line 1, so the data row at 0-based reader position `k` is reported as row
`k + 2` (the first data line as row 2); with that numbering, the row-shape
check reports every offending row and only offending rows, and the
value-domain check attributes every issue of the `k`-th data row to line
`k + 2` and reports all of them. -/
theorem c4_row_numbers_amended :
    (∀ rows (k : Nat) (r : List String), rows.get? k = some r →
      r.length ≠ EXPECTED_HEADERS.length →
      (⟨"row_shape", "row has " ++ toString r.length ++ " cols", some (k + 2)⟩ : Issue)
        ∈ RowShapeValidator.issuesFrom 2 rows)
    ∧ (∀ rows (iss : Issue), iss ∈ RowShapeValidator.issuesFrom 2 rows →
        ∃ k r, rows.get? k = some r ∧ r.length ≠ EXPECTED_HEADERS.length
          ∧ iss.row = some (k + 2))
    ∧ (∀ (fn : String) (store : Store) (f : CFile) rows (k : Nat) (r : List String),
        f.readable = true → f.records = EXPECTED_HEADERS :: rows →
        (∀ r2 ∈ rows, r2.length = EXPECTED_HEADERS.length) → rows.get? k = some r →
        ∃ res cur, ValueDomainValidator.validate fn f [] store = .ok res
          ∧ ValueDomainValidator.rowIssues EXPECTED_HEADERS r (k + 2) = .ok cur
          ∧ ∀ x ∈ cur, x.row = some (k + 2) ∧ x ∈ res.issues) := by
  refine ⟨?_, ?_, ?_⟩
  · intro rows k r hk hbad
    have h := rowShape_issuesFrom_mem rows 2 k r hk hbad
    rwa [Nat.add_comm 2 k] at h
  · intro rows iss h
    obtain ⟨k, r, hk, hbad, heq⟩ := rowShape_issuesFrom_sound rows 2 iss h
    exact ⟨k, r, hk, hbad, by rw [heq]; congr 1; omega⟩
  · intro fn store f rows k r hread hrecs hall hk
    obtain ⟨L, hval, hL⟩ := valueDomain_validate_ok fn store f rows hread hrecs hall
    obtain ⟨cur, hcur, hsub⟩ := issuesFrom_rowIssues EXPECTED_HEADERS rows 2 L hL k r hk
    have hmem : r ∈ rows := List.get?_mem hk
    have hconds : dictGet EXPECTED_HEADERS r "timestamp" ≠ some none
        ∧ ∀ col ∈ EXPECTED_HEADERS.drop 2, dictGet EXPECTED_HEADERS r col ≠ some none := by
      constructor
      · obtain ⟨v, hv⟩ := dictGet_full r (hall r hmem) "timestamp" (by decide)
        rw [hv]; simp
      · intro col hcol
        obtain ⟨v, hv⟩ := dictGet_full r (hall r hmem) col
          (List.drop_subset 2 EXPECTED_HEADERS hcol)
        rw [hv]; simp
    have hspec := rowIssues_eq EXPECTED_HEADERS r (2 + k) hconds.1 hconds.2
    rw [hspec] at hcur
    have hcureq : cur = rowIssuesSpec EXPECTED_HEADERS r (2 + k) := (Except.ok.inj hcur).symm
    refine ⟨⟨L.isEmpty, L, []⟩, cur, hval, ?_, ?_⟩
    · rw [Nat.add_comm k 2, hspec, hcureq]
    · intro x hx
      refine ⟨?_, hsub x hx⟩
      rw [hcureq] at hx
      have := rowIssuesSpec_row EXPECTED_HEADERS r (2 + k) x hx
      rwa [Nat.add_comm 2 k] at this

theorem c4_row_numbers_amended_witness :
    ((⟨"row_shape", "row has 2 cols", some 2⟩ : Issue)
        ∈ RowShapeValidator.issuesFrom 2 [["1", "12:00:00"]])
    ∧ (∃ res cur, ValueDomainValidator.validate fnA fileC9 [] [] = .ok res
        ∧ ValueDomainValidator.rowIssues EXPECTED_HEADERS rowC9 2 = .ok cur
        ∧ ∀ x ∈ cur, x.row = some 2 ∧ x ∈ res.issues) := by
  constructor
  · have h := c4_row_numbers_amended.1 [["1", "12:00:00"]] 0 ["1", "12:00:00"]
      (by decide) (by decide)
    simpa using h
  · have h := c4_row_numbers_amended.2.2 fnA [] fileC9 [rowC9] 0 rowC9
      (by decide) (by decide) (by decide) (by decide)
    simpa using h

/-! ## Claim C9 -/

theorem row_lookups_present (r : List String) (hlen : r.length = EXPECTED_HEADERS.length) :
    dictGet EXPECTED_HEADERS r "timestamp" ≠ some none
    ∧ ∀ col ∈ EXPECTED_HEADERS.drop 2, dictGet EXPECTED_HEADERS r col ≠ some none := by
  constructor
  · obtain ⟨v, hv⟩ := dictGet_full r hlen "timestamp" (by decide)
    rw [hv]; simp
  · intro col hcol
    obtain ⟨v, hv⟩ := dictGet_full r hlen col (List.drop_subset 2 EXPECTED_HEADERS hcol)
    rw [hv]; simp

/-- Claim C9: each of the ten reading columns must parse as a float strictly
below 10.0; on a file whose rows have the full 12 columns, a reading value
that fails to parse, or whose value is at least 10.0, yields a
`value_domain` issue for that row, with the message naming the column — for
a non-parsing value `<col> not float`, for an out-of-range value
`<col> out of range: <repr of the parsed float>`. -/
theorem c9_value_domain_range (fn : String) (store : Store) (f : CFile)
    (rows : List (List String)) (k j : Nat) (r : List String) (v : String)
    (hread : f.readable = true)
    (hrecs : f.records = EXPECTED_HEADERS :: rows)
    (hall : ∀ r2 ∈ rows, r2.length = EXPECTED_HEADERS.length)
    (hk : rows.get? k = some r)
    (hj : j < 10)
    (hv : r.get? (j + 2) = some v)
    (hbad : parsePyFloat (pyStrip v) = none
      ∨ ∃ fv, parsePyFloat (pyStrip v) = some fv ∧ pyGe10 fv = true) :
    ∃ res, ValueDomainValidator.validate fn f [] store = .ok res
      ∧ res.ok = false
      ∧ ∃ iss ∈ res.issues, iss.rule = "value_domain" ∧ iss.row = some (k + 2)
        ∧ (parsePyFloat (pyStrip v) = none →
            iss.message = "reading" ++ toString (j + 1) ++ " not float")
        ∧ (∀ fv, parsePyFloat (pyStrip v) = some fv →
            iss.message = "reading" ++ toString (j + 1) ++ " out of range: " ++ fmtPyFloat fv) := by
  have hmemr : r ∈ rows := List.get?_mem hk
  have hlen := hall r hmemr
  have hfind : EXPECTED_HEADERS.findIdx? (· = "reading" ++ toString (j + 1)) = some (j + 2)
      ∧ ("reading" ++ toString (j + 1)) ∈ EXPECTED_HEADERS.drop 2 := by
    interval_cases j <;> exact ⟨by decide, by decide⟩
  have hdg : dictGet EXPECTED_HEADERS r ("reading" ++ toString (j + 1)) = some (some v) := by
    simp only [dictGet, hfind.1]
    rw [show r[j + 2]? = r.get? (j + 2) from (List.get?_eq_getElem? r (j + 2)).symm, hv]
  have hdval : dictValStr EXPECTED_HEADERS r ("reading" ++ toString (j + 1)) = v := by
    simp [dictValStr, hdg]
  have hiss : ∃ iss ∈ readingIssueOf ("reading" ++ toString (j + 1)) (pyStrip v) (2 + k),
      iss.rule = "value_domain" ∧ iss.row = some (2 + k)
      ∧ (parsePyFloat (pyStrip v) = none →
          iss.message = "reading" ++ toString (j + 1) ++ " not float")
      ∧ (∀ fv, parsePyFloat (pyStrip v) = some fv →
          iss.message = "reading" ++ toString (j + 1) ++ " out of range: " ++ fmtPyFloat fv) := by
    rcases hbad with hb | ⟨fv, hfv, hge⟩
    · refine ⟨⟨"value_domain", "reading" ++ toString (j + 1) ++ " not float", some (2 + k)⟩,
        ?_, rfl, rfl, fun _ => rfl, ?_⟩
      · unfold readingIssueOf
        rw [hb]
        simp
      · intro fv2 hfv2
        rw [hb] at hfv2
        cases hfv2
    · refine ⟨⟨"value_domain",
        "reading" ++ toString (j + 1) ++ " out of range: " ++ fmtPyFloat fv, some (2 + k)⟩,
        ?_, rfl, rfl, ?_, ?_⟩
      · unfold readingIssueOf
        rw [hfv]
        simp [hge]
      · intro hnone
        rw [hnone] at hfv
        cases hfv
      · intro fv2 hfv2
        have heq : fv2 = fv := by
          rw [hfv] at hfv2
          exact (Option.some.inj hfv2).symm
        rw [heq]
  obtain ⟨L, hval, hL⟩ := valueDomain_validate_ok fn store f rows hread hrecs hall
  obtain ⟨cur, hcur, hsub⟩ := issuesFrom_rowIssues EXPECTED_HEADERS rows 2 L hL k r hk
  have hpresent := row_lookups_present r hlen
  have hspec := rowIssues_eq EXPECTED_HEADERS r (2 + k) hpresent.1 hpresent.2
  rw [hspec] at hcur
  have hcureq : cur = rowIssuesSpec EXPECTED_HEADERS r (2 + k) := (Except.ok.inj hcur).symm
  obtain ⟨iss, hissmem, hrule, hrow, hm1, hm2⟩ := hiss
  have hmemspec : iss ∈ rowIssuesSpec EXPECTED_HEADERS r (2 + k) := by
    unfold rowIssuesSpec
    refine List.mem_append_right _ (List.mem_flatMap.mpr
      ⟨"reading" ++ toString (j + 1), hfind.2, ?_⟩)
    rw [hdval]
    exact hissmem
  have hmemL : iss ∈ L := hsub iss (hcureq ▸ hmemspec)
  have hLne : L ≠ [] := by
    intro hnil
    rw [hnil] at hmemL
    simp at hmemL
  refine ⟨⟨L.isEmpty, L, []⟩, hval, ?_, iss, hmemL, hrule, ?_, hm1, hm2⟩
  · exact Bool.eq_false_iff.mpr (fun hT => hLne (List.isEmpty_iff.mp hT))
  · rw [hrow]
    congr 1
    omega

/-- Witness for C9, end-to-end scenario C: `reading3 = 10.0` in the first
data row is rejected with rule `value_domain`, message
`reading3 out of range: 10.0`, at row 2 (the first data row's physical line
number). -/
theorem c9_value_domain_range_witness :
    ∃ res, ValueDomainValidator.validate fnA fileC9 [] [] = .ok res
      ∧ res.ok = false
      ∧ ∃ iss ∈ res.issues, iss.rule = "value_domain" ∧ iss.row = some 2
        ∧ iss.message = "reading3 out of range: 10.0" := by
  obtain ⟨res, hval, hok, iss, hmem, hrule, hrow, hm1, hm2⟩ :=
    c9_value_domain_range fnA [] fileC9 [rowC9] 0 2 rowC9 "10.0" (by decide) (by decide)
      (by decide) (by decide) (by decide) (by decide)
      (Or.inr ⟨PyFloat.num 100 1, by decide, by decide⟩)
  refine ⟨res, hval, hok, iss, hmem, hrule, hrow, ?_⟩
  rw [hm2 (PyFloat.num 100 1) (by decide)]
  decide

/-! ## Claim C10 -/

/-- Claim C10: a file whose name matches the pattern with a real calendar
timestamp, whose size is positive, and whose sole record is exactly the
expected header (no data rows) is accepted whenever its digest is not
already recorded: the row-shape, value-domain and duplicate-batch-id checks
pass vacuously on zero data rows. -/
theorem c10_header_only_accepted (cfg : PConfig) (store : Store) (clock : Nat)
    (nowDt : DateTime) (fn : String) (f : CFile) (ts : String) (dt : DateTime)
    (hfm : fnameMatch fn = some ts) (hdt : parseDt14 ts = some dt)
    (hread : f.readable = true) (hsize : ¬f.size = 0) (hcsv : f.csvError = none)
    (hrecs : f.records = [EXPECTED_HEADERS])
    (hseen : Tracker.is_seen store (sha256Hex f.bytes) = false) :
    (Pipeline.process_file cfg DEFAULT_PIPELINE store clock nowDt fn f).result = some true
    ∧ (Pipeline.process_file cfg DEFAULT_PIPELINE store clock nowDt fn f).ledger = []
    ∧ RowShapeValidator.validate fn f [] store = .ok ⟨true, [], []⟩
    ∧ ValueDomainValidator.validate fn f [] store = .ok ⟨true, [], []⟩
    ∧ DuplicateBatchValidator.validate fn f [] store = .ok ⟨true, [], []⟩ := by
  have hhd : f.records.head? = some EXPECTED_HEADERS := by rw [hrecs]; rfl
  have hrs : RowShapeValidator.issuesFrom 2 (f.records.drop 1) = [] := by rw [hrecs]; rfl
  have hvd : ValueDomainValidator.issuesFrom EXPECTED_HEADERS 2 (dictRows f.records)
      = .ok [] := by rw [hrecs]; rfl
  have hdup : DuplicateBatchValidator.issuesFrom EXPECTED_HEADERS [] 2 (dictRows f.records)
      = .ok [] := by rw [hrecs]; rfl
  have hch := chain_passes store fn f ts dt hfm hdt hread hsize hcsv hhd hrs hvd hdup hseen
  have hout := process_file_passed_out cfg store clock nowDt fn f dt ts hch
  refine ⟨?_, ?_, ?_, ?_, ?_⟩
  · rw [hout]
    by_cases hg : (!cfg.dryRun && !cfg.noMove) = true <;> simp [hg]
  · rw [hout]
    by_cases hg : (!cfg.dryRun && !cfg.noMove) = true <;> simp [hg]
  · unfold RowShapeValidator.validate
    rw [hread, hrecs]
    simp [RowShapeValidator.issuesFrom]
  · unfold ValueDomainValidator.validate
    rw [hread, hrecs]
    simp [dictRows, ValueDomainValidator.issuesFrom]
  · unfold DuplicateBatchValidator.validate
    rw [hread, hrecs]
    simp [dictRows, DuplicateBatchValidator.issuesFrom]

/-- A header-only file. -/
def fileC10 : CFile := ⟨[6], 13, [EXPECTED_HEADERS], true, none⟩

theorem c10_header_only_accepted_witness :
    (Pipeline.process_file cfgFull DEFAULT_PIPELINE [] 0 nowD fnA fileC10).result = some true
    ∧ (Pipeline.process_file cfgFull DEFAULT_PIPELINE [] 0 nowD fnA fileC10).ledger = [] := by
  have h := c10_header_only_accepted cfgFull [] 0 nowD fnA fileC10 "20240101120000"
    ⟨2024, 1, 1, 12, 0, 0⟩ (by decide) (by decide) (by decide) (by decide) (by decide)
    (by decide) (by decide)
  exact ⟨h.1, h.2.1⟩

/-! ## Claim C7 -/

/-- Claim C7: every file that passes all checks with moves enabled is moved
to `<archive root>/<YYYY>/<MM>/<DD>/<original filename>` where the date
bucket comes from the datetime parsed out of the filename's embedded
14-digit timestamp — changing the wall clock does not change the
destination. -/
theorem c7_archive_bucket (cfg : PConfig) (store : Store) (clock : Nat)
    (nowDt : DateTime) (fn : String) (f : CFile)
    (hdry : cfg.dryRun = false) (hnm : cfg.noMove = false)
    (hacc : (Pipeline.process_file cfg DEFAULT_PIPELINE store clock nowDt fn f).result
      = some true) :
    ∃ ts dt, fnameMatch fn = some ts ∧ parseDt14 ts = some dt
      ∧ (Pipeline.process_file cfg DEFAULT_PIPELINE store clock nowDt fn f).moves
          = [(fn, cfg.archivePath ++ "/" ++ fmtDate dt ++ "/" ++ fn)]
      ∧ ∀ nowDt2, (Pipeline.process_file cfg DEFAULT_PIPELINE store clock nowDt2 fn f).moves
          = [(fn, cfg.archivePath ++ "/" ++ fmtDate dt ++ "/" ++ fn)] := by
  obtain ⟨ctx, hch⟩ := process_file_accepted_chain cfg DEFAULT_PIPELINE store clock nowDt fn f
    default_neverEmptyFail hacc
  obtain ⟨ts, dt, hfm, hdt, hr, hs, hcsv, hhd, hrs, hvd, hdup, hseen, hctx⟩ :=
    chain_passed_inv store fn f ctx hch
  subst hctx
  have hguard : (!cfg.dryRun && !cfg.noMove) = true := by simp [hdry, hnm]
  refine ⟨ts, dt, hfm, hdt, ?_, ?_⟩
  · rw [process_file_passed_out cfg store clock nowDt fn f dt ts hch, if_pos hguard]
  · intro nowDt2
    rw [process_file_passed_out cfg store clock nowDt2 fn f dt ts hch, if_pos hguard]

/-- Witness for C7, end-to-end scenario A: `MED_DATA_20240101120000.csv` is
archived under `2024/01/01`, derived from the filename, not from the
(2025-dated) wall clock. -/
theorem c7_archive_bucket_witness :
    (Pipeline.process_file cfgFull DEFAULT_PIPELINE [] 0 nowD fnA fileA).moves
      = [(fnA, "data/archive/2024/01/01/" ++ fnA)] := by
  obtain ⟨ts, dt, hfm, hdt, hmv, _⟩ := c7_archive_bucket cfgFull [] 0 nowD fnA fileA
    (by decide) (by decide) (by decide)
  have hts : ts = "20240101120000" := by
    rw [show fnameMatch fnA = some "20240101120000" from by decide] at hfm
    exact (Option.some.inj hfm).symm
  subst hts
  have hdtv : dt = ⟨2024, 1, 1, 12, 0, 0⟩ := by
    rw [show parseDt14 "20240101120000" = some ⟨2024, 1, 1, 12, 0, 0⟩ from by decide] at hdt
    exact (Option.some.inj hdt).symm
  subst hdtv
  rw [hmv]
  decide

/-! ## Claim C2 -/

theorem is_seen_mark_seen (s : Store) (fn sha ts : String) :
    Tracker.is_seen (Tracker.mark_seen s fn sha ts) sha = true := by
  unfold Tracker.mark_seen
  by_cases h : Tracker.is_seen s sha = true
  · rw [if_pos h]
    exact h
  · rw [if_neg h]
    unfold Tracker.is_seen
    rw [List.any_append]
    simp [List.any_cons]

/-- The invariant the `UNIQUE` constraint on `sha256` enforces: at most one
`seen_files` row per digest value. -/
def shaNodup (s : Store) : Prop := (s.map (fun rec => rec.sha256)).Nodup

theorem mark_seen_nodup (s : Store) (fn sha ts : String) (h : shaNodup s) :
    shaNodup (Tracker.mark_seen s fn sha ts) := by
  unfold Tracker.mark_seen
  by_cases hseen : Tracker.is_seen s sha = true
  · rw [if_pos hseen]
    exact h
  · rw [if_neg hseen]
    unfold shaNodup
    rw [List.map_append, List.nodup_append]
    refine ⟨h, by simp, ?_⟩
    intro x hx
    simp only [List.map_cons, List.map_nil, List.mem_singleton]
    intro hxs
    subst hxs
    apply hseen
    unfold Tracker.is_seen
    rw [List.any_eq_true]
    obtain ⟨rec, hrec, heq⟩ := List.mem_map.mp hx
    exact ⟨rec, hrec, by simp [heq]⟩

/-- Claim C2 counterexample: byte-identical content resubmitted under a
filename that does not itself pass the filename-format check is rejected by
THAT check, not by the uniqueness check — the chain never reaches
`file_uniqueness`, so "rejected by the uniqueness check under any filename"
is false.  (No second seen-record is created either way.) -/
theorem c2_uniqueness_counterexample :
    (Pipeline.process_file cfgFull DEFAULT_PIPELINE [] 0 nowD fnA fileA).result = some true
    ∧ (Pipeline.process_file cfgFull DEFAULT_PIPELINE
          (Pipeline.process_file cfgFull DEFAULT_PIPELINE [] 0 nowD fnA fileA).store
          1 nowD "x.csv" fileA).ledger.map (fun r => r.rule)
        = ["filename_format"]
    ∧ (Pipeline.process_file cfgFull DEFAULT_PIPELINE
          (Pipeline.process_file cfgFull DEFAULT_PIPELINE [] 0 nowD fnA fileA).store
          1 nowD "x.csv" fileA).result = some false := by
  refine ⟨?_, ?_, ?_⟩ <;> decide

/-- Claim C2 as amended: after a file is accepted in a run with side effects
enabled (tracker write not skipped), its digest is recorded; resubmitting
byte-identical content under any filename that passes the filename-format
check is rejected by the uniqueness check with rule `file_uniqueness`, the
store is not touched (no second seen-record for the digest), and the
at-most-one-record-per-digest invariant is preserved. -/
theorem c2_uniqueness_amended (cfg1 cfg2 : PConfig) (store : Store) (c1 c2 : Nat)
    (now1 now2 : DateTime) (fn1 fn2 : String) (f : CFile) (ts2 : String) (dt2 : DateTime)
    (hdry : cfg1.dryRun = false) (hnm : cfg1.noMove = false)
    (hacc : (Pipeline.process_file cfg1 DEFAULT_PIPELINE store c1 now1 fn1 f).result
      = some true)
    (hfm2 : fnameMatch fn2 = some ts2) (hdt2 : parseDt14 ts2 = some dt2) :
    Tracker.is_seen (Pipeline.process_file cfg1 DEFAULT_PIPELINE store c1 now1 fn1 f).store
        (sha256Hex f.bytes) = true
    ∧ (Pipeline.process_file cfg2 DEFAULT_PIPELINE
          (Pipeline.process_file cfg1 DEFAULT_PIPELINE store c1 now1 fn1 f).store
          c2 now2 fn2 f).result = some false
    ∧ (Pipeline.process_file cfg2 DEFAULT_PIPELINE
          (Pipeline.process_file cfg1 DEFAULT_PIPELINE store c1 now1 fn1 f).store
          c2 now2 fn2 f).ledger.map (fun r => (r.rule, r.message))
        = [("file_uniqueness", "duplicate file (sha256)")]
    ∧ (Pipeline.process_file cfg2 DEFAULT_PIPELINE
          (Pipeline.process_file cfg1 DEFAULT_PIPELINE store c1 now1 fn1 f).store
          c2 now2 fn2 f).store
        = (Pipeline.process_file cfg1 DEFAULT_PIPELINE store c1 now1 fn1 f).store
    ∧ (shaNodup store →
        shaNodup (Pipeline.process_file cfg1 DEFAULT_PIPELINE store c1 now1 fn1 f).store) := by
  obtain ⟨ctx, hch⟩ := process_file_accepted_chain cfg1 DEFAULT_PIPELINE store c1 now1 fn1 f
    default_neverEmptyFail hacc
  obtain ⟨ts1, dt1, hfm1, hdt1, hr, hs, hcsv, hhd, hrs, hvd, hdup, hseen, hctx⟩ :=
    chain_passed_inv store fn1 f ctx hch
  subst hctx
  have hguard : (!cfg1.dryRun && !cfg1.noMove) = true := by simp [hdry, hnm]
  have hout1 := process_file_passed_out cfg1 store c1 now1 fn1 f dt1 ts1 hch
  have hstore1 : (Pipeline.process_file cfg1 DEFAULT_PIPELINE store c1 now1 fn1 f).store
      = Tracker.mark_seen store fn1 (sha256Hex f.bytes) (fmtDate now1) := by
    rw [hout1, if_pos hguard]
  have hseen1 : Tracker.is_seen
      (Pipeline.process_file cfg1 DEFAULT_PIPELINE store c1 now1 fn1 f).store
      (sha256Hex f.bytes) = true := by
    rw [hstore1]
    exact is_seen_mark_seen store fn1 (sha256Hex f.bytes) (fmtDate now1)
  have hch2 := chain_seen_fails
    (Pipeline.process_file cfg1 DEFAULT_PIPELINE store c1 now1 fn1 f).store
    fn2 f ts2 dt2 hfm2 hdt2 hr hs hcsv hhd hrs hvd hdup hseen1
  have hout2 := process_file_failed_out cfg2 DEFAULT_PIPELINE
    (Pipeline.process_file cfg1 DEFAULT_PIPELINE store c1 now1 fn1 f).store
    c2 now2 fn2 f [⟨"file_uniqueness", "duplicate file (sha256)", none⟩]
    (acceptedCtx dt2 ts2 (sha256Hex f.bytes)) hch2 (by simp) hr
  refine ⟨hseen1, ?_, ?_, ?_, ?_⟩
  · rw [hout2]
  · rw [hout2]
    simp [emitRecords]
  · rw [hout2]
  · intro hnd
    rw [hstore1]
    exact mark_seen_nodup store fn1 (sha256Hex f.bytes) (fmtDate now1) hnd

theorem c2_uniqueness_amended_witness :
    Tracker.is_seen (Pipeline.process_file cfgFull DEFAULT_PIPELINE [] 0 nowD fnA fileA).store
        (sha256Hex fileA.bytes) = true
    ∧ (Pipeline.process_file cfgFull DEFAULT_PIPELINE
          (Pipeline.process_file cfgFull DEFAULT_PIPELINE [] 0 nowD fnA fileA).store
          1 nowD "MED_DATA_20240102090000.csv" fileA).ledger.map (fun r => (r.rule, r.message))
        = [("file_uniqueness", "duplicate file (sha256)")] := by
  have h := c2_uniqueness_amended cfgFull cfgFull [] 0 1 nowD nowD fnA
    "MED_DATA_20240102090000.csv" fileA "20240102090000" ⟨2024, 1, 2, 9, 0, 0⟩
    (by decide) (by decide) (by decide) (by decide) (by decide)
  exact ⟨h.1, h.2.2.1⟩
